import Mathlib

/-!
Verification development for the natural-language command-understanding core of
the jarvis-ai-assistant repository.  The four components (Utterance Segmenter in
modules/continuous_listener.py, NLU Engine in modules/nlu_engine.py,
Conversation Context Store in modules/conversation_context.py and Intent
Resolver in modules/intent_resolver.py) are shallowly embedded below: Python
strings become Lean strings, dictionaries become insertion-ordered association
lists, `datetime` timestamps become integers (seconds), floats become rationals,
and calls into external libraries (the NLTK tokenizer and tagger, the optional
spaCy model, and the regular-expression tables whose matching the engine
delegates to Python `re`) are parameterised by explicit oracle records, so the
theorems quantify over every possible behaviour of those collaborators.
-/

set_option maxHeartbeats 1000000
set_option linter.unusedVariables false

namespace Jarvis

/-! ## Generic string helpers

Python string primitives (`in`, `str.find`, `str.lower`, `str.strip`,
`re.search` with word boundaries) are modelled on `List Char`. -/

/-- Whether `needle` is a prefix of `hay` (character lists). -/
def listPrefixOf : List Char → List Char → Bool
  | [], _ => true
  | _ :: _, [] => false
  | a :: as, b :: bs => a == b && listPrefixOf as bs

/-- Models the Python `needle in hay` substring test on character lists. -/
def containsSubList (needle : List Char) : List Char → Bool
  | [] => listPrefixOf needle []
  | c :: rest => listPrefixOf needle (c :: rest) || containsSubList needle rest

/-- Models the Python substring operator `needle in hay` on strings. -/
def containsSub (hay needle : String) : Bool :=
  containsSubList needle.toList hay.toList

/-- Index of the earliest occurrence of `needle`, as in Python `hay.find(needle)`. -/
def findSubList (needle : List Char) : List Char → Option Nat
  | [] => if listPrefixOf needle [] then some 0 else none
  | c :: rest =>
    if listPrefixOf needle (c :: rest) then some 0
    else (findSubList needle rest).map (· + 1)

/-- Turn a character list back into a string. -/
def listToStr (cs : List Char) : String := String.mk cs

/-- `str.lower()`, written over the character list so the kernel can evaluate
it on concrete inputs. -/
def toLowerStr (s : String) : String := listToStr (s.toList.map Char.toLower)

/-- `str.strip()`: whitespace removed from both ends. -/
def trimStr (s : String) : String :=
  listToStr
    (((s.toList.dropWhile Char.isWhitespace).reverse.dropWhile Char.isWhitespace).reverse)

/-- `str.startswith(p)`. -/
def startsWithStr (s p : String) : Bool := listPrefixOf p.toList s.toList

/-- Replacement of every non-overlapping occurrence of the nonempty pattern
`p0 :: prest`, scanned left to right (`str.replace`).  The first argument is
recursion fuel, instantiated with the text length so that the recursion is
structural and the kernel can evaluate it; since each step consumes at least
one character, the fuel never runs out. -/
def replaceList (p0 : Char) (prest repl : List Char) : Nat → List Char → List Char
  | 0, hay => hay
  | _ + 1, [] => []
  | fuel + 1, c :: rest =>
    if listPrefixOf (p0 :: prest) (c :: rest) then
      repl ++ replaceList p0 prest repl fuel (rest.drop prest.length)
    else c :: replaceList p0 prest repl fuel rest

/-- `s.replace(pat, repl)` (the patterns used by the source are nonempty). -/
def replaceStr (s pat repl : String) : String :=
  match pat.toList with
  | [] => s
  | p0 :: prest => listToStr (replaceList p0 prest repl.toList s.toList.length s.toList)

/-- Python `str.split()`: split on whitespace runs, dropping empty pieces
(fuel-structured like `replaceList`). -/
def splitWhitespaceAux : Nat → List Char → List (List Char)
  | 0, _ => []
  | _ + 1, [] => []
  | fuel + 1, c :: rest =>
    if c.isWhitespace then splitWhitespaceAux fuel rest
    else (c :: rest.takeWhile (fun d => !d.isWhitespace))
      :: splitWhitespaceAux fuel (rest.dropWhile (fun d => !d.isWhitespace))

/-- Python `str.split()` on a string. -/
def splitWhitespace (s : String) : List String :=
  (splitWhitespaceAux s.toList.length s.toList).map listToStr

/-- A regex word character (`\w`), as used by word boundaries `\b`. -/
def isWordChar (c : Char) : Bool := c.isAlphanum || c == '_'

/-- The position after `prev` is a word boundary coming from the left. -/
def boundaryBefore : Option Char → Bool
  | none => true
  | some c => !isWordChar c

/-- The position before this suffix is a word boundary coming from the right. -/
def boundaryAfter : List Char → Bool
  | [] => true
  | c :: _ => !isWordChar c

/-- Helper for `containsWordCI`: scans the text remembering the previous
character so word boundaries can be checked. -/
def containsPhraseAux (phrase : List Char) : Option Char → List Char → Bool
  | _, [] => false
  | prev, c :: rest =>
    (boundaryBefore prev && listPrefixOf phrase (c :: rest)
      && boundaryAfter ((c :: rest).drop phrase.length))
    || containsPhraseAux phrase (some c) rest

/-- Models `re.search(rf'\b{phrase}\b', hay, re.IGNORECASE) is not None` for a
phrase made of word characters and single spaces (all the alternatives used by
the source fall in this class). -/
def containsWordCI (hay phrase : String) : Bool :=
  containsPhraseAux (toLowerStr phrase).toList none (toLowerStr hay).toList

/-- Models a regex alternation `\b(a1|a2|...)\b` searched case-insensitively. -/
def matchesAnyWord (hay : String) (alts : List String) : Bool :=
  alts.any (containsWordCI hay)

/-- Regex whitespace (`\s`). -/
def isSpaceCh (c : Char) : Bool := c == ' ' || c == '\t' || c == '\n' || c == '\r'

/-- Case-insensitive prefix test on character lists. -/
def listPrefixOfCI (needle hay : List Char) : Bool :=
  listPrefixOf (needle.map Char.toLower) (hay.map Char.toLower)

end Jarvis

namespace Jarvis

/-! ## Regex-shaped extraction helpers

The handful of capturing regular expressions the source applies to raw
utterances are small enough to implement directly.  Each helper scans for the
earliest match position, like `re.search`. -/

/-- Capture for `KEYWORD\s+(.+)` starting right after the keyword: greedy
whitespace, then a nonempty remainder; with the usual backtracking corner where
`.+` re-consumes the final whitespace character when nothing else follows.
Inputs are single-line utterances, so `.` ranges over the whole remainder. -/
def captureRest (afterKeyword : List Char) : Option (List Char) :=
  let w := afterKeyword.takeWhile isSpaceCh
  let r1 := afterKeyword.dropWhile isSpaceCh
  if w.isEmpty then none
  else if !r1.isEmpty then some r1
  else if 2 ≤ w.length then some [' ']
  else none

/-- Models `re.search(phrase + r'\s+(.+)', text, re.IGNORECASE)` for a literal
phrase, returning the stripped capture.  Used for `play\s+(.+)`,
`wikipedia\s+(.+)`, `tell me about\s+(.+)` and friends. -/
def phraseCaptureAux (phrase : List Char) : List Char → Option (List Char)
  | [] => none
  | c :: rest =>
    if listPrefixOfCI phrase (c :: rest) then
      match captureRest ((c :: rest).drop phrase.length) with
      | some cap => some cap
      | none => phraseCaptureAux phrase rest
    else phraseCaptureAux phrase rest

/-- Search `phrase\s+(.+)` in `text`, case-insensitively, and strip the capture. -/
def phraseCapture (phrase text : String) : Option String :=
  (phraseCaptureAux phrase.toList text.toList).map (fun cs => trimStr (listToStr cs))

/-- Capture for the location pattern `\b(?:in|for|at)\s+([A-Za-z\s]+)`:
whitespace then a maximal run of letters and whitespace (with the backtracking
corner when the run is all whitespace). -/
def locCaptureAt (rest : List Char) : Option (List Char) :=
  let w := rest.takeWhile isSpaceCh
  let r1 := rest.dropWhile isSpaceCh
  if w.isEmpty then none
  else
    let cap := r1.takeWhile (fun c => c.isAlpha || isSpaceCh c)
    if !cap.isEmpty then some cap
    else if 2 ≤ w.length then some [' ']
    else none

/-- Scan for the earliest `\b(?:in|for|at)\s+([A-Za-z\s]+)` match. -/
def locationSearchAux : Option Char → List Char → Option (List Char)
  | _, [] => none
  | prev, c :: rest =>
    let here :=
      if boundaryBefore prev then
        if listPrefixOfCI "in".toList (c :: rest) then
          locCaptureAt ((c :: rest).drop 2)
        else if listPrefixOfCI "for".toList (c :: rest) then
          locCaptureAt ((c :: rest).drop 3)
        else if listPrefixOfCI "at".toList (c :: rest) then
          locCaptureAt ((c :: rest).drop 2)
        else none
      else none
    match here with
    | some cap => some cap
    | none => locationSearchAux (some c) rest

/-- Models `re.search(r'\b(?:in|for|at)\s+([A-Za-z\s]+)', s, re.IGNORECASE)`,
returning `group(1).strip()`. -/
def locationSearch (s : String) : Option String :=
  (locationSearchAux none s.toList).map (fun cs => trimStr (listToStr cs))

/-- Scan for the earliest `(\d+)\s*(minute|hour|second)` match (IGNORECASE),
returning the string `"{group1} {group2}"` built by the source. -/
def timerSearchAux : List Char → Option String
  | [] => none
  | c :: rest =>
    let here :=
      if c.isDigit then
        let ds := (c :: rest).takeWhile Char.isDigit
        let afterDs := (c :: rest).dropWhile Char.isDigit
        let afterSp := afterDs.dropWhile isSpaceCh
        let unit :=
          if listPrefixOfCI "minute".toList afterSp then some (afterSp.take 6)
          else if listPrefixOfCI "hour".toList afterSp then some (afterSp.take 4)
          else if listPrefixOfCI "second".toList afterSp then some (afterSp.take 6)
          else none
        unit.map (fun u => listToStr ds ++ " " ++ listToStr u)
      else none
    match here with
    | some r => some r
    | none => timerSearchAux rest

/-- Models `re.search(r'(\d+)\s*(minute|hour|second)', s, re.IGNORECASE)` and
the f-string `"{group1} {group2}"`. -/
def timerSearch (s : String) : Option String := timerSearchAux s.toList

end Jarvis

namespace Jarvis

/-! ## Utterance Segmenter (`modules/continuous_listener.py`, class ContinuousListener)

The NLTK tokenizer and part-of-speech tagger are external collaborators; they
are modelled by a `ListenerOracle`.  When `nlpAvailable` is false the source
falls into the `except` branch of `clean_command` and uses `_simple_clean`. -/

namespace ContinuousListener

/-- `self.filter_words` (constructor, lines 46-52). -/
def filter_words : List (String × List String) :=
  [("articles", ["a", "an", "the"]),
   ("prepositions", ["in", "on", "at", "by", "for", "with", "to", "from", "of", "about"]),
   ("conjunctions", ["and", "or", "but", "so", "yet"]),
   ("pronouns", ["i", "you", "he", "she", "it", "we", "they", "me", "him", "her", "us", "them"]),
   ("common_words", ["please", "can", "could", "would", "will", "should", "may", "might"])]

/-- `_is_filter_word`. -/
def is_filter_word (word : String) : Bool :=
  filter_words.any (fun p => p.2.contains word)

/-- The fallback stopword set written literally in the source (`setup_nlp`,
lines 70-78), assigned to `self.stop_words` only when the NLTK download fails.
In the successful branch (line 64) `self.stop_words` is NLTK's downloaded
English stopword list — external data — so `clean_command` below consults the
oracle field `ListenerOracle.stop_words`, of which this list is one possible
value. -/
def fallback_stop_words : List String :=
  ["i", "me", "my", "myself", "we", "our", "ours", "ourselves", "you", "your", "yours",
   "yourself", "yourselves", "he", "him", "his", "himself", "she", "her", "hers",
   "herself", "it", "its", "itself", "they", "them", "their", "theirs", "themselves",
   "what", "which", "who", "whom", "this", "that", "these", "those", "am", "is", "are",
   "was", "were", "be", "been", "being", "have", "has", "had", "having", "do", "does",
   "did", "doing", "a", "an", "the", "and", "but", "if", "or", "because", "as", "until",
   "while", "of", "at", "by", "for", "with", "through", "during", "before", "after",
   "above", "below", "up", "down", "in", "out", "on", "off", "over", "under", "again",
   "further", "then", "once"]

/-- The content-bearing POS tags kept by `clean_command`. -/
def important_pos : List String :=
  ["NN", "NNS", "NNP", "NNPS", "VB", "VBD", "VBG", "VBN", "VBP", "VBZ",
   "JJ", "JJR", "JJS", "CD", "RB", "RBR", "RBS"]

/-- The whitelist of command words kept by `clean_command` regardless of tag. -/
def command_keep_words : List String :=
  ["open", "close", "play", "stop", "start", "search", "find", "tell", "show", "get"]

/-- Oracle for the external NLTK components used by `clean_command`.
`nlpAvailable` selects between the `try` body and the `except` fallback;
`posTagAt i t` is the tag `nltk.pos_tag` assigns to the `i`-th token `t`;
`stop_words` is the membership test of `self.stop_words`, which `setup_nlp`
sets either to NLTK's downloaded English stopword list (line 64) or, on a
download failure, to `fallback_stop_words` (lines 70-78) — theorems quantify
over it and may hypothesize facts true of both actual values. -/
structure ListenerOracle where
  nlpAvailable : Bool
  posTagAt : Nat → String → String
  stop_words : String → Bool

/-- Models `nltk.word_tokenize`.  On the whitespace-separated, punctuation-free
command texts considered in the theorems below it coincides with whitespace
tokenization (the `isalnum` filter on the next line of the source drops
punctuation tokens in any case). -/
def word_tokenize (s : String) : List String :=
  splitWhitespace s

/-- A Python `str.isalnum()` test: nonempty and all alphanumeric. -/
def strIsAlnum (s : String) : Bool :=
  s ≠ "" && s.toList.all Char.isAlphanum

/-- `_handle_special_cases`. -/
def handle_special_cases (command : String) : String :=
  if containsSub command "time" then "time"
  else if ["weather", "temperature", "forecast"].any (containsSub command) then "weather"
  else if ["search", "google", "find"].any (containsSub command) then
    let search_terms :=
      trimStr (replaceStr (replaceStr (replaceStr command "search" "") "google" "") "find" "")
    if search_terms ≠ "" then "search " ++ search_terms else "search"
  else if containsSub command "open" then
    let app_name := trimStr (replaceStr command "open" "")
    if app_name ≠ "" then "open " ++ app_name else "open"
  else command

/-- `_simple_clean`. -/
def simple_clean (text : String) : String :=
  let words := splitWhitespace text
  let cleaned := words.filter (fun w => !(["the", "a", "an", "please", "can", "you"].contains w))
  String.intercalate " " cleaned

/-- The `pos_tag(tokens)` call: each token paired with the tag the external
(position-aware) tagger assigns it. -/
def tagTokens (osc : ListenerOracle) (i : Nat) : List String → List (String × String)
  | [] => []
  | t :: ts => (t, osc.posTagAt i t) :: tagTokens osc (i + 1) ts

/-- `clean_command`. -/
def clean_command (osc : ListenerOracle) (command_text : String) : String :=
  if osc.nlpAvailable then
    let tokens := word_tokenize command_text
    let tokens := (tokens.map toLowerStr).filter strIsAlnum
    let pos_tags := tagTokens osc 0 tokens
    let cleaned_tokens := pos_tags.filterMap (fun tp =>
      if important_pos.contains tp.2 then some tp.1
      else if command_keep_words.contains tp.1 then some tp.1
      else if !osc.stop_words tp.1 && !is_filter_word tp.1 then some tp.1
      else none)
    let cleaned_tokens :=
      if cleaned_tokens.length < 1 then
        tokens.filter (fun t => !osc.stop_words t && !is_filter_word t)
      else cleaned_tokens
    handle_special_cases (String.intercalate " " cleaned_tokens)
  else
    simple_clean command_text

/-- `extract_wake_word_and_command`.  Scans the wake-word list in order and
takes the first entry that occurs anywhere in the lower-cased transcript. -/
def extract_wake_word_and_command (osc : ListenerOracle) (wake_words : List String)
    (text : String) : Option String × Option String :=
  let text_lower := trimStr (toLowerStr text)
  match wake_words.find? (fun w => containsSub text_lower w) with
  | none => (none, none)
  | some wake_word_found =>
    let wake_word_position := (findSubList wake_word_found.toList text_lower.toList).getD 0
    let command_start := wake_word_position + wake_word_found.length
    let command_text := trimStr (listToStr (text_lower.toList.drop command_start))
    if command_text = "" then (some wake_word_found, none)
    else (some wake_word_found, some (clean_command osc command_text))

end ContinuousListener

end Jarvis

namespace Jarvis

/-! ## Conversation Context Store (`modules/conversation_context.py`)

Timestamps (`datetime.now()`, stored and serialized via ISO-8601 text) are
modelled as integer seconds threaded explicitly as a `now` argument.  The
serialized snapshot produced by `json.dump`/`json.load` is modelled by a small
JSON value type; `datetime.isoformat`/`fromisoformat` become the embedding of
an integer into a JSON leaf and its partial inverse, which keeps both the exact
round-trip of well-formed timestamps and the failure of malformed ones. -/

/-- The JSON values exchanged with the snapshot file. -/
inductive Json where
  | null
  | bool (b : Bool)
  | num (n : Int)
  | str (s : String)
  | arr (items : List Json)
  | obj (fields : List (String × Json))

/-- Python `dict.get` over the (insertion-ordered) fields of a JSON object. -/
def jsonLookup (fields : List (String × Json)) (key : String) : Option Json :=
  (fields.find? (fun p => p.1 == key)).map (·.2)

/-- Models `datetime.isoformat()`: the serialized form of a timestamp. -/
def encodeTimestamp (t : Int) : Json := Json.num t

/-- Models `datetime.fromisoformat`: succeeds exactly on serialized timestamps,
raises (here: `none`) on anything else. -/
def decodeTimestamp : Json → Option Int
  | Json.num t => some t
  | _ => none

/-- A JSON leaf expected to be a string. -/
def asStr : Json → Option String
  | Json.str s => some s
  | _ => none

/-- Python truthiness of an optional string: `None` and `""` are falsy. -/
def truthyOptStr : Option String → Bool
  | none => false
  | some s => s ≠ ""

/-- Insertion-ordered dictionary update: overwriting an existing key keeps its
position, a new key is appended (Python 3.7+ dict semantics). -/
def setAssoc {α : Type} : List (String × α) → String → α → List (String × α)
  | [], k, v => [(k, v)]
  | (k', v') :: rest, k, v =>
    if k' == k then (k, v) :: rest else (k', v') :: setAssoc rest k v

/-- Dictionary lookup (`d[k]` / `d.get(k)` / `k in d`). -/
def lookupAssoc {α : Type} (d : List (String × α)) (k : String) : Option α :=
  (d.find? (fun p => p.1 == k)).map (·.2)

/-- One entry of `conversation_history`. -/
structure Interaction where
  timestamp : Int
  user_input : String
  jarvis_response : String
  command_type : Option String
  entities : List String
  deriving DecidableEq

/-- The state of `class ConversationContext` (constructor, lines 14-38). -/
structure ConversationContext where
  max_history : Nat := 50
  context_timeout : Int := 300
  conversation_history : List Interaction := []
  current_topic : Option String := none
  current_entity : Option String := none
  last_command_type : Option String := none
  last_response_time : Option Int := none
  context_vars : List (String × String) := []
  entities : List (String × Int) := []
  deriving DecidableEq

namespace ConversationContext

/-- `_update_context_vars`. -/
def update_context_vars (st : ConversationContext) (user_input : String)
    (command_type : Option String) : ConversationContext :=
  if command_type == some "weather" then
    match locationSearch user_input with
    | some loc => { st with context_vars := setAssoc st.context_vars "last_location" loc }
    | none => st
  else if command_type == some "music" then
    match phraseCapture "play" user_input with
    | some q => { st with context_vars := setAssoc st.context_vars "last_music_query" q }
    | none => st
  else if command_type == some "timer" then
    match timerSearch user_input with
    | some d => { st with context_vars := setAssoc st.context_vars "last_timer_duration" d }
    | none => st
  else st

/-- `add_interaction`.  The several `datetime.now()` calls inside one method
body are the single instant `now`. -/
def add_interaction (st : ConversationContext) (now : Int)
    (user_input jarvis_response : String) (command_type : Option String := none)
    (entities : Option (List String) := none) : ConversationContext :=
  let interaction : Interaction :=
    { timestamp := now, user_input, jarvis_response, command_type,
      entities := entities.getD [] }
  let history := st.conversation_history ++ [interaction]
  let history := if st.max_history < history.length then history.drop 1 else history
  let st := { st with conversation_history := history,
                      last_command_type := command_type,
                      last_response_time := some now }
  let st :=
    match entities with
    | some es =>
      if !es.isEmpty then
        { st with entities := es.foldl (fun d e => setAssoc d e now) st.entities }
      else st
    | none => st
  update_context_vars st user_input command_type

/-- The `follow_up_patterns` alternation lists of `_is_follow_up_question`. -/
def follow_up_pattern_alternatives : List (List String) :=
  [["what about", "how about", "and"],
   ["also", "too", "as well"],
   ["tomorrow", "yesterday", "next", "last"],
   ["there", "here", "that", "this"],
   ["more", "another", "different"]]

/-- `_is_follow_up_question`. -/
def is_follow_up_question (st : ConversationContext) (now : Int) (user_input : String) : Bool :=
  match st.last_response_time with
  | none => false
  | some t =>
    if st.context_timeout < now - t then false
    else follow_up_pattern_alternatives.any (fun alts => matchesAnyWord user_input alts)

/-- The `reference_patterns` alternation lists of `_get_referenced_topic`. -/
def reference_pattern_alternatives : List (List String) :=
  [["it", "that", "this", "there", "here"],
   ["tomorrow", "yesterday", "next", "last"],
   ["more", "another", "different"]]

/-- `_get_referenced_topic` (`if not self.last_command_type` is Python
truthiness, so an empty-string topic also yields `None`). -/
def get_referenced_topic (st : ConversationContext) (user_input : String) : Option String :=
  if !truthyOptStr st.last_command_type then none
  else if reference_pattern_alternatives.any (fun alts => matchesAnyWord user_input alts) then
    st.last_command_type
  else none

/-- `_get_implied_command`. -/
def get_implied_command (st : ConversationContext) (now : Int) (user_input : String) :
    Option String :=
  if !is_follow_up_question st now user_input then none
  else if st.last_command_type == some "weather" then
    if matchesAnyWord user_input ["tomorrow", "next", "later"] then some "weather_forecast"
    else if matchesAnyWord user_input ["there", "that place"] then some "weather_location"
    else st.last_command_type
  else if st.last_command_type == some "music" then
    if matchesAnyWord user_input ["more", "another", "different"] then some "music_similar"
    else if matchesAnyWord user_input ["pause", "stop", "next", "previous"] then some "music_control"
    else st.last_command_type
  else st.last_command_type

/-- `_get_recent_entities`: entities seen within `context_timeout` of now. -/
def get_recent_entities (st : ConversationContext) (now : Int) : List String :=
  let cutoff_time := now - st.context_timeout
  (st.entities.filter (fun p => cutoff_time < p.2)).map (·.1)

/-- Deduplication keeping first occurrences (stand-in for Python `set`). -/
def dedupFirst : List (Option String) → List (Option String)
  | [] => []
  | x :: xs => x :: (dedupFirst xs).filter (fun y => y ≠ x)

/-- First element with maximal multiplicity: a deterministic stand-in for the
Python `max(set(l), key=l.count)`, whose tie order is the unspecified set
iteration order.  `none` exactly when the list is empty (the `else None`). -/
def maxByCount (l : List (Option String)) : Option (Option String) :=
  (dedupFirst l).foldl (fun best x =>
    match best with
    | none => some x
    | some b => if l.count b < l.count x then some x else best) none

/-- The summary dictionary built by `_analyze_conversation_flow` (the two
branches return different key sets, hence the optional fields). -/
structure ConversationFlow where
  pattern : String
  trend : Option String := none
  recent_commands : Option (List (Option String)) := none
  dominant_topic : Option (Option String) := none
  deriving DecidableEq

/-- `_analyze_conversation_flow`. -/
def analyze_conversation_flow (st : ConversationContext) : ConversationFlow :=
  if st.conversation_history.length < 2 then
    { pattern := "initial", trend := some "none" }
  else
    let recent_commands :=
      (st.conversation_history.drop (st.conversation_history.length - 5)).map (·.command_type)
    let pattern :=
      if recent_commands.dedup.length == 1 && truthyOptStr (recent_commands.headD none) then
        "focused"
      else if 2 < recent_commands.length
          && recent_commands.getLast? == recent_commands.get? (recent_commands.length - 3) then
        "alternating"
      else "varied"
    { pattern, recent_commands := some recent_commands,
      dominant_topic := some (maxByCount recent_commands).join }

/-- The context dictionary built by `get_context_for_input`
(`follow_up_resolved` is the key the Intent Resolver later splices in). -/
structure Context where
  is_follow_up : Bool
  referenced_topic : Option String
  implied_command : Option String
  context_vars : List (String × String)
  recent_entities : List String
  conversation_flow : ConversationFlow
  follow_up_resolved : Bool := false
  deriving DecidableEq

/-- `get_context_for_input`. -/
def get_context_for_input (st : ConversationContext) (now : Int) (user_input : String) :
    Context :=
  { is_follow_up := is_follow_up_question st now user_input,
    referenced_topic := get_referenced_topic st user_input,
    implied_command := get_implied_command st now user_input,
    context_vars := st.context_vars,
    recent_entities := get_recent_entities st now,
    conversation_flow := analyze_conversation_flow st }

/-- The dictionary returned by `resolve_follow_up` (the non-follow-up branch
carries only the first two keys). -/
structure FollowUpResult where
  resolved : Bool
  original_input : String
  resolved_input : Option String := none
  command_type : Option String := none
  context : Option Context := none
  deriving DecidableEq

/-- `resolve_follow_up`. -/
def resolve_follow_up (st : ConversationContext) (now : Int) (user_input : String) :
    FollowUpResult :=
  let context := get_context_for_input st now user_input
  if !context.is_follow_up then
    { resolved := false, original_input := user_input }
  else
    let resolved_input := user_input
    let resolved_input :=
      if context.referenced_topic == some "weather" then
        if containsSub (toLowerStr user_input) "tomorrow" then
          match lookupAssoc context.context_vars "last_location" with
          | some loc => "weather forecast tomorrow" ++ " in " ++ loc
          | none => "weather forecast tomorrow"
        else if containsSub (toLowerStr user_input) "there"
            && (lookupAssoc context.context_vars "last_location").isSome then
          "weather in " ++ (lookupAssoc context.context_vars "last_location").getD ""
        else resolved_input
      else if context.referenced_topic == some "music" then
        if containsSub (toLowerStr user_input) "more" || containsSub (toLowerStr user_input) "another" then
          match lookupAssoc context.context_vars "last_music_query" with
          | some q => "play similar to " ++ q
          | none => resolved_input
        else resolved_input
      else resolved_input
    { resolved := true, original_input := user_input, resolved_input := some resolved_input,
      command_type := context.implied_command, context := some context }

/-- `clear_context`: resets topic/entity/var fields, keeps the history — and,
as the source is written, also keeps `self.entities` and `last_response_time`. -/
def clear_context (st : ConversationContext) : ConversationContext :=
  { st with current_topic := none, current_entity := none,
            last_command_type := none, context_vars := [] }

/-- The snapshot data `save_context` serializes with `json.dump` (the actual
file write is external I/O; a write failure is caught and mutates nothing). -/
def encodeOptStr : Option String → Json
  | none => Json.null
  | some s => Json.str s

/-- One history entry as serialized by `save_context`
(`{**interaction, 'timestamp': interaction['timestamp'].isoformat()}`). -/
def encodeInteraction (i : Interaction) : Json :=
  Json.obj [("timestamp", encodeTimestamp i.timestamp),
            ("user_input", Json.str i.user_input),
            ("jarvis_response", Json.str i.jarvis_response),
            ("command_type", encodeOptStr i.command_type),
            ("entities", Json.arr (i.entities.map Json.str))]

/-- `save_context`: the `context_data` dictionary passed to `json.dump`. -/
def save_context (st : ConversationContext) : Json :=
  Json.obj [("conversation_history", Json.arr (st.conversation_history.map encodeInteraction)),
            ("context_vars", Json.obj (st.context_vars.map (fun p => (p.1, Json.str p.2)))),
            ("entities", Json.obj (st.entities.map (fun p => (p.1, encodeTimestamp p.2))))]

/-- Decoding of `command_type` on load (`null` or a string). -/
def decodeOptStr : Json → Option (Option String)
  | Json.null => some none
  | Json.str s => some (some s)
  | _ => none

/-- Reading a JSON array of strings element by element, failing on the first
non-string. -/
def decodeStrList : List Json → Option (List String)
  | [] => some []
  | j :: rest =>
    match asStr j with
    | some s => (decodeStrList rest).map (fun l => s :: l)
    | none => none

/-- Untyped-to-typed reading of one loaded interaction.  Python raises only on
`interaction['timestamp']` (missing key or `fromisoformat` failure) and keeps
every other field untyped; the typed embedding additionally requires the other
fields to have the shape `save_context` writes — a divergence only for files
not produced by `save_context`, which no property below depends on. -/
def decodeInteraction : Json → Option Interaction
  | Json.obj fields => do
    let tsj ← jsonLookup fields "timestamp"
    let t ← decodeTimestamp tsj
    let ui ← (jsonLookup fields "user_input").bind asStr
    let jr ← (jsonLookup fields "jarvis_response").bind asStr
    let ct ← (jsonLookup fields "command_type").bind decodeOptStr
    let es ← (jsonLookup fields "entities").bind (fun j =>
      match j with
      | Json.arr items => decodeStrList items
      | _ => none)
    some { timestamp := t, user_input := ui, jarvis_response := jr,
           command_type := ct, entities := es }
  | _ => none

/-- The history-restoring loop of `load_context`: appends interactions one by
one; a failing record stops the loop, leaving the partially rebuilt list
(the Boolean reports whether the loop ran to completion). -/
def restoreHistory (acc : List Interaction) : List Json → List Interaction × Bool
  | [] => (acc, true)
  | j :: rest =>
    match decodeInteraction j with
    | some i => restoreHistory (acc ++ [i]) rest
    | none => (acc, false)

/-- The `context_vars` dictionary as restored by load. -/
def decodeStrMap : List (String × Json) → Option (List (String × String))
  | [] => some []
  | (k, j) :: rest =>
    match asStr j with
    | some s => (decodeStrMap rest).map (fun l => (k, s) :: l)
    | none => none

/-- The `entities` dictionary comprehension of load: evaluated in full before
the assignment, so a malformed timestamp leaves `self.entities` untouched. -/
def decodeEntities : List (String × Json) → Option (List (String × Int))
  | [] => some []
  | (k, j) :: rest =>
    match decodeTimestamp j with
    | some t => (decodeEntities rest).map (fun l => (k, t) :: l)
    | none => none

/-- `load_context`.  `file = none` models an I/O or JSON parse error inside
`json.load`, raised before any state is touched.  After that point the method
body mutates `self` field by field, and the blanket `except` clause catches a
failure wherever it occurs, freezing whatever has been mutated so far:
`self.conversation_history = []` runs before the loop, so a malformed record
leaves the partially rebuilt history in place while `context_vars` and
`entities` keep their prior values. -/
def load_context (st : ConversationContext) (file : Option Json) : ConversationContext :=
  match file with
  | none => st
  | some context_data =>
    let st := { st with conversation_history := [] }
    match context_data with
    | Json.obj fields =>
      match (jsonLookup fields "conversation_history").getD (Json.arr []) with
      | Json.arr items =>
        let restored := restoreHistory [] items
        let st := { st with conversation_history := restored.1 }
        if !restored.2 then st
        else
          match (jsonLookup fields "context_vars").getD (Json.obj []) with
          | Json.obj cvFields =>
            match decodeStrMap cvFields with
            | none => st
            | some cv =>
              let st := { st with context_vars := cv }
              match (jsonLookup fields "entities").getD (Json.obj []) with
              | Json.obj entFields =>
                match decodeEntities entFields with
                | none => st
                | some ents =>
                  let st := { st with entities := ents }
                  match st.conversation_history.getLast? with
                  | some last =>
                    { st with last_command_type := last.command_type,
                              last_response_time := some last.timestamp }
                  | none => st
              | _ => st
          | _ => st
      | _ => st
    | _ => st

end ConversationContext

end Jarvis

namespace Jarvis

/-! ## NLU Engine (`modules/nlu_engine.py`)

The engine delegates all pattern matching of the per-intent regex tables to
Python `re`, and entity/structure extraction partly to the optional spaCy
model.  Both are modelled by an `NLUOracle`: `matchesPattern` answers whether a
given table regex matches the preprocessed input, `entityMatches` yields the
`finditer` results of a given entity regex, and the spaCy fields describe the
optional model.  The confidence arithmetic, the tables themselves, the
keyword/substring checks and the ambiguity analysis are embedded concretely. -/

namespace NLUEngine

/-- `re.sub(rf'\b{phrase}\b', '', s)`: remove every word-boundary-delimited
occurrence of `phrase` (fuel-structured recursion like `replaceList`; each
step consumes at least one character, so the fuel — the text length — never
runs out). -/
def removeWordAux (p0 : Char) (prest : List Char) :
    Nat → Option Char → List Char → List Char
  | 0, _, hay => hay
  | _ + 1, _, [] => []
  | fuel + 1, prev, c :: rest =>
    if boundaryBefore prev && listPrefixOf (p0 :: prest) (c :: rest)
        && boundaryAfter (rest.drop prest.length) then
      removeWordAux p0 prest fuel ((p0 :: prest).getLast?) (rest.drop prest.length)
    else c :: removeWordAux p0 prest fuel (some c) rest

/-- Remove the word-boundary occurrences of `phrase` from `s`. -/
def removeWordOccurrences (s : String) (phrase : String) : String :=
  match phrase.toList with
  | [] => s
  | p0 :: prest => listToStr (removeWordAux p0 prest s.toList.length none s.toList)

/-- The `filler_words` list of `_preprocess_input`. -/
def filler_words : List String := ["um", "uh", "like", "you know", "well"]

/-- The `contractions` table of `_preprocess_input` (applied with
`str.replace`, i.e. plain substring replacement of every occurrence). -/
def contractions : List (String × String) :=
  [("what's", "what is"), ("how's", "how is"), ("where's", "where is"),
   ("when's", "when is"), ("who's", "who is"), ("can't", "cannot"),
   ("won't", "will not"), ("don't", "do not"), ("didn't", "did not")]

/-- `_preprocess_input`. -/
def preprocess_input (user_input : String) : String :=
  let processed := trimStr (toLowerStr user_input)
  let processed := filler_words.foldl removeWordOccurrences processed
  let processed := contractions.foldl (fun s p => replaceStr s p.1 p.2) processed
  trimStr processed

/-- `_load_intent_patterns`: the literal regex table.  The matching of these
patterns is delegated to the oracle, keyed by these literals. -/
def intent_patterns : List (String × List String) :=
  [("weather",
    ["\\b(weather|temperature|forecast|rain|sunny|cloudy|storm)\\b",
     "\\b(how.*(?:hot|cold|warm))\\b",
     "\\b(will it rain|is it raining)\\b"]),
   ("music",
    ["\\b(play|music|song|artist|album|spotify|youtube)\\b",
     "\\b(pause|resume|stop|next|previous|skip)\\b",
     "\\b(volume|loud|quiet)\\b"]),
   ("time",
    ["\\b(time|clock|hour|minute|when)\\b",
     "\\b(what time|current time)\\b"]),
   ("calendar",
    ["\\b(calendar|appointment|meeting|schedule|event)\\b",
     "\\b(today|tomorrow|next week|this week)\\b"]),
   ("timer",
    ["\\b(timer|alarm|remind|countdown)\\b",
     "\\b(set.*timer|start.*timer)\\b"]),
   ("calculator",
    ["\\b(calculate|math|plus|minus|times|divide)\\b",
     "\\b(\\d+\\s*[\\+\\-\\*\\/]\\s*\\d+)\\b"]),
   ("system",
    ["\\b(system|computer|cpu|memory|disk|battery)\\b",
     "\\b(shutdown|restart|sleep)\\b"]),
   ("web",
    ["\\b(search|google|open|website|browser)\\b",
     "\\b(youtube|github|stackoverflow)\\b"]),
   ("email",
    ["\\b(email|mail|message|send)\\b",
     "\\b(inbox|unread)\\b"]),
   ("news",
    ["\\b(news|headlines|breaking|latest)\\b",
     "\\b(what.*happening|current events)\\b"]),
   ("wikipedia",
    ["\\b(wikipedia|wiki|tell me about|what is)\\b",
     "\\b(information about|facts about)\\b"]),
   ("joke",
    ["\\b(joke|funny|humor|laugh)\\b",
     "\\b(tell me.*joke|make me laugh)\\b"]),
   ("greeting",
    ["\\b(hello|hi|hey|good morning|good afternoon|good evening)\\b",
     "\\b(how are you|what\\'s up)\\b"]),
   ("goodbye",
    ["\\b(bye|goodbye|see you|exit|quit|stop)\\b",
     "\\b(shut down|turn off)\\b"]),
   ("help",
    ["\\b(help|assist|support|what can you do)\\b",
     "\\b(commands|functions|capabilities)\\b"])]

/-- `_get_intent_keywords`. -/
def intent_keywords : List (String × List String) :=
  [("weather", ["weather", "temperature", "rain", "sunny", "cloudy"]),
   ("music", ["play", "music", "song", "pause", "volume"]),
   ("time", ["time", "clock", "hour", "minute"]),
   ("calendar", ["calendar", "meeting", "appointment", "schedule"]),
   ("timer", ["timer", "alarm", "remind", "countdown"]),
   ("calculator", ["calculate", "math", "plus", "minus"]),
   ("system", ["system", "computer", "cpu", "memory"]),
   ("web", ["search", "google", "open", "website"]),
   ("email", ["email", "mail", "message", "inbox"]),
   ("news", ["news", "headlines", "breaking"]),
   ("wikipedia", ["wikipedia", "wiki", "information"]),
   ("joke", ["joke", "funny", "humor", "laugh"]),
   ("greeting", ["hello", "hi", "hey", "morning"]),
   ("goodbye", ["bye", "goodbye", "exit", "quit"]),
   ("help", ["help", "assist", "support", "commands"])]

/-- `keywords.get(intent, [])`. -/
def get_intent_keywords (intent : String) : List String :=
  (lookupAssoc intent_keywords intent).getD []

/-- `_load_entity_patterns`: the literal regex table (braces written as hex
escapes).  The oracle performs the `finditer` calls, keyed by these literals. -/
def entity_patterns : List (String × List String) :=
  [("location",
    ["\\b(?:in|at|for)\\s+([A-Z][a-z]+(?:\\s+[A-Z][a-z]+)*)\\b",
     "\\b(New York|Los Angeles|Chicago|Houston|Phoenix|Philadelphia|San Antonio|San Diego|Dallas|San Jose)\\b"]),
   ("time",
    ["\\b(\\d\x7b1,2\x7d:\\d\x7b2\x7d(?:\\s*[AaPp][Mm])?)\\b",
     "\\b(morning|afternoon|evening|night|noon|midnight)\\b",
     "\\b(today|tomorrow|yesterday|next week|last week)\\b"]),
   ("duration",
    ["\\b(\\d+)\\s*(second|minute|hour|day|week|month|year)s?\\b",
     "\\b(a|an|one)\\s*(second|minute|hour|day|week|month|year)\\b"]),
   ("number",
    ["\\b(\\d+(?:\\.\\d+)?)\\b",
     "\\b(one|two|three|four|five|six|seven|eight|nine|ten)\\b"]),
   ("person",
    ["\\b([A-Z][a-z]+\\s+[A-Z][a-z]+)\\b"]),
   ("music_query",
    ["\\bplay\\s+(.+?)(?:\\s+(?:on|by|from)|\\s*$)",
     "\\b(?:song|track|music)\\s+(.+?)(?:\\s+by|\\s*$)"]),
   ("search_query",
    ["\\bsearch\\s+(?:for\\s+)?(.+?)(?:\\s+on|\\s*$)",
     "\\bgoogle\\s+(.+?)(?:\\s+for|\\s*$)"])]

/-- One `re.finditer` match as consumed by `_extract_entities`: the selected
group text (`group(1)` when the pattern has groups, else `group(0)`) and the
span of the whole match. -/
structure RegexMatch where
  value : String
  start : Nat
  stop : Nat
  deriving DecidableEq

/-- One spaCy entity (`doc.ents` member). -/
structure SpacyEnt where
  label : String
  text : String
  start_char : Nat
  end_char : Nat

/-- The subject/verb/object/modifier data spaCy-based parsing extracts in
`_parse_command_structure` when the model is available. -/
structure ParsedStruct where
  subject : Option String := none
  verb : Option String := none
  object : Option String := none
  modifiers : List String := []
  deriving DecidableEq

/-- Oracle for the engine's external collaborators: the `re` matcher applied
to the literal pattern tables, and the optional spaCy model (absent when
`nlpAvailable` is false, matching `self.nlp = None`). -/
structure NLUOracle where
  matchesPattern : String → String → Bool
  entityMatches : String → String → List RegexMatch
  nlpAvailable : Bool
  spacyEnts : String → List SpacyEnt
  parsedStruct : String → ParsedStruct

/-- An extracted entity record (`end` is a Lean keyword, so the span end is
called `stop`; `start`/`stop` are absent on context-spliced entities). -/
structure Entity where
  value : String
  start : Option Nat := none
  stop : Option Nat := none
  confidence : ℚ
  source : Option String := none
  spacy_label : Option String := none
  deriving DecidableEq

/-- One ranked intent candidate. -/
structure IntentCand where
  intent : String
  confidence : ℚ
  matched_patterns : List String := []
  deriving DecidableEq

/-- Stable insertion preserving the descending-confidence order: an element is
placed before the first element of smaller-or-equal confidence, which makes
the fold below the stable descending sort Python `list.sort(reverse=True)`
performs. -/
def insertDesc (x : IntentCand) : List IntentCand → List IntentCand
  | [] => [x]
  | y :: ys => if y.confidence ≤ x.confidence then x :: y :: ys else y :: insertDesc x ys

/-- `intents.sort(key=lambda x: x['confidence'], reverse=True)` (stable). -/
def sortByConfidenceDesc (l : List IntentCand) : List IntentCand :=
  l.foldr insertDesc []

/-- The body of the `_classify_intents` loop for one intent: +0.3 per matching
pattern, +0.2 for a second pattern match, +0.1 per keyword occurring in the
processed input; intents with zero evidence are dropped, the rest capped at 1. -/
def intent_candidate (osc : NLUOracle) (processed_input : String)
    (ip : String × List String) : Option IntentCand :=
  let matched_patterns := ip.2.filter (fun pat => osc.matchesPattern processed_input pat)
  let confidence : ℚ := 0.3 * (matched_patterns.length : ℚ)
  let confidence := if 1 < matched_patterns.length then confidence + 0.2 else confidence
  let confidence := confidence + 0.1 *
    (((get_intent_keywords ip.1).filter (fun k => containsSub processed_input k)).length : ℚ)
  if 0 < confidence then
    some { intent := ip.1, confidence := min confidence 1, matched_patterns }
  else none

/-- `_classify_intents`. -/
def classify_intents (osc : NLUOracle) (user_input : String) : List IntentCand :=
  let processed_input := preprocess_input user_input
  let intents := intent_patterns.filterMap (intent_candidate osc processed_input)
  sortByConfidenceDesc intents

/-- `_map_spacy_entity_type`. -/
def map_spacy_entity_type (spacy_label : String) : Option String :=
  lookupAssoc
    [("PERSON", "person"), ("GPE", "location"), ("LOC", "location"),
     ("TIME", "time"), ("DATE", "time"), ("CARDINAL", "number"),
     ("ORDINAL", "number"), ("QUANTITY", "number")] spacy_label

/-- Append an entity under its type key, with `defaultdict(list)` semantics. -/
def addEntity (d : List (String × List Entity)) (ty : String) (e : Entity) :
    List (String × List Entity) :=
  match d with
  | [] => [(ty, [e])]
  | (k, es) :: rest =>
    if k == ty then (k, es ++ [e]) :: rest else (k, es) :: addEntity rest ty e

/-- `_extract_entities`: every regex match carries confidence 0.8, every
spaCy entity 0.9. -/
def extract_entities (osc : NLUOracle) (user_input : String) :
    List (String × List Entity) :=
  let entities := entity_patterns.foldl (fun d ep =>
    ep.2.foldl (fun d pat =>
      (osc.entityMatches user_input pat).foldl (fun d m =>
        addEntity d ep.1
          { value := trimStr m.value, start := some m.start, stop := some m.stop,
            confidence := 0.8 }) d) d) []
  if osc.nlpAvailable then
    (osc.spacyEnts user_input).foldl (fun d ent =>
      match map_spacy_entity_type ent.label with
      | some ty =>
        addEntity d ty
          { value := ent.text, start := some ent.start_char, stop := some ent.end_char,
            confidence := 0.9, spacy_label := some ent.label }
      | none => d) entities
  else entities

/-- `_identify_question_type` (dict iterated in insertion order; the first
matching pattern wins). -/
def identify_question_type (user_input : String) : Option String :=
  if containsWordCI user_input "what" then some "what"
  else if containsWordCI user_input "how" then some "how"
  else if containsWordCI user_input "when" then some "when"
  else if containsWordCI user_input "where" then some "where"
  else if containsWordCI user_input "who" then some "who"
  else if containsWordCI user_input "why" then some "why"
  else if containsWordCI user_input "which" then some "which"
  else if matchesAnyWord user_input
      ["is", "are", "can", "could", "will", "would", "do", "does", "did"] then
    some "yes_no"
  else none

/-- The `command_structure` dictionary. -/
structure CommandStructure where
  subject : Option String := none
  verb : Option String := none
  object : Option String := none
  modifiers : List String := []
  question_type : Option String := none
  deriving DecidableEq

/-- `_parse_command_structure`: the grammatical fields stay `None` without
spaCy; `question_type` is always computed. -/
def parse_command_structure (osc : NLUOracle) (user_input : String) : CommandStructure :=
  let base : CommandStructure := { question_type := identify_question_type user_input }
  if osc.nlpAvailable then
    let p := osc.parsedStruct user_input
    { base with subject := p.subject, verb := p.verb, object := p.object,
                modifiers := p.modifiers }
  else base

/-- The ambiguity report. -/
structure Ambiguity where
  has_ambiguity : Bool := false
  ambiguous_terms : List String := []
  multiple_intents : Bool := false
  unclear_entities : List String := []
  deriving DecidableEq

/-- The `ambiguous_pronouns` list of `_detect_ambiguity`. -/
def ambiguous_pronouns : List String := ["it", "that", "this", "there", "here"]

/-- `_detect_ambiguity`. -/
def detect_ambiguity (osc : NLUOracle) (user_input : String) : Ambiguity :=
  let ambiguous_terms := ambiguous_pronouns.filter (fun p => containsWordCI user_input p)
  let intents := classify_intents osc user_input
  let multiple_intents :=
    match intents with
    | a :: b :: _ => decide (a.confidence - b.confidence < 0.3)
    | _ => false
  { has_ambiguity := !ambiguous_terms.isEmpty || multiple_intents,
    ambiguous_terms, multiple_intents }

/-- The `context_indicators` alternation lists of `_is_context_dependent`
(the `context` argument of the source is unused by its body). -/
def context_indicator_alternatives : List (List String) :=
  [["it", "that", "this", "there", "here"],
   ["also", "too", "as well"],
   ["more", "another", "different"],
   ["tomorrow", "yesterday", "next", "last"]]

/-- `_is_context_dependent`. -/
def is_context_dependent (user_input : String) : Bool :=
  context_indicator_alternatives.any (fun alts => matchesAnyWord user_input alts)

/-- The analysis dictionary (`resolved_intent` is the key `_resolve_with_context`
may add). -/
structure Analysis where
  original_input : String
  processed_input : String
  intents : List IntentCand
  entities : List (String × List Entity)
  command_structure : CommandStructure
  confidence : ℚ
  ambiguity : Ambiguity
  context_dependent : Bool
  resolved_intent : Option String := none
  deriving DecidableEq

/-- The accumulation steps of `_calculate_confidence` before the ambiguity
penalty: intent share, mean entity confidence share, verb and object boosts
(`if structure['verb']` is Python truthiness). -/
def confidence_before_ambiguity (analysis : Analysis) : ℚ :=
  let confidence : ℚ := 0
  let confidence :=
    match analysis.intents with
    | [] => confidence
    | top :: _ => confidence + top.confidence * 0.4
  let allEntities := (analysis.entities.map (fun p => p.2)).flatten
  let entity_confidence := (allEntities.map (fun e => e.confidence)).sum
  let entity_count := allEntities.length
  let confidence :=
    if 0 < entity_count then confidence + (entity_confidence / (entity_count : ℚ)) * 0.3
    else confidence
  let confidence :=
    if truthyOptStr analysis.command_structure.verb then confidence + 0.2 else confidence
  if truthyOptStr analysis.command_structure.object then confidence + 0.1 else confidence

/-- `_calculate_confidence`: the accumulation above, multiplied by 0.8 when
ambiguity was detected, clamped to at most 1. -/
def calculate_confidence (analysis : Analysis) : ℚ :=
  let confidence := confidence_before_ambiguity analysis
  let confidence :=
    if analysis.ambiguity.has_ambiguity then confidence * 0.8 else confidence
  min confidence 1

/-- `_resolve_with_context` (the `if not context` guard cannot fire: the
caller always passes the six-key context dictionary, which is truthy). -/
def resolve_with_context (analysis : Analysis) (context : ConversationContext.Context) :
    Analysis :=
  let analysis :=
    if !analysis.ambiguity.ambiguous_terms.isEmpty then
      if truthyOptStr context.referenced_topic then
        { analysis with resolved_intent := context.referenced_topic,
                        confidence := analysis.confidence + 0.2 }
      else analysis
    else analysis
  if !context.context_vars.isEmpty then
    let spliced := context.context_vars.foldl (fun d p =>
      if startsWithStr p.1 "last_" then
        addEntity d (replaceStr p.1 "last_" "")
          { value := p.2, confidence := 0.7, source := some "context" }
      else d) analysis.entities
    { analysis with entities := spliced }
  else analysis

/-- The analysis dictionary `analyze_input` builds before computing the
overall confidence. -/
def analysis_record (osc : NLUOracle) (user_input : String) : Analysis :=
  { original_input := user_input,
    processed_input := preprocess_input user_input,
    intents := classify_intents osc user_input,
    entities := extract_entities osc user_input,
    command_structure := parse_command_structure osc user_input,
    confidence := 0,
    ambiguity := detect_ambiguity osc user_input,
    context_dependent := is_context_dependent user_input }

/-- `analyze_input`. -/
def analyze_input (osc : NLUOracle) (user_input : String)
    (context : Option ConversationContext.Context := none) : Analysis :=
  let analysis := analysis_record osc user_input
  let analysis := { analysis with confidence := calculate_confidence analysis }
  match context with
  | some ctx =>
    if analysis.context_dependent then resolve_with_context analysis ctx else analysis
  | none => analysis

/-- The structured command dictionary built by `generate_command` (the
no-intent branch returns `{'command': None, 'error': ...}`, i.e. a record
without an `intent` key). -/
structure Command where
  intent : Option String := none
  confidence : ℚ := 0
  parameters : List (String × String) := []
  action : Option String := none
  type_ : Option String := none
  error : Option String := none
  deriving DecidableEq

/-- The `parameters` slot lists of `_load_command_templates` (the only part of
the template dictionaries `generate_command` reads). -/
def command_template_parameters : List (String × List String) :=
  [("weather", ["location", "time"]),
   ("music", ["action", "query"]),
   ("timer", ["duration", "action"])]

/-- `_generate_music_command`. -/
def generate_music_command (command : Command) (analysis : Analysis) : Command :=
  let user_input := toLowerStr analysis.original_input
  if ["play", "start"].any (containsSub user_input) then
    let command := { command with action := some "play" }
    match lookupAssoc analysis.entities "music_query" with
    | some (e :: _) =>
      { command with parameters := setAssoc command.parameters "query" e.value }
    | _ => command
  else if ["pause", "stop"].any (containsSub user_input) then
    { command with action := some "pause" }
  else if ["resume", "continue"].any (containsSub user_input) then
    { command with action := some "resume" }
  else if ["next", "skip"].any (containsSub user_input) then
    { command with action := some "next" }
  else if ["previous", "back"].any (containsSub user_input) then
    { command with action := some "previous" }
  else command

/-- `_generate_weather_command`. -/
def generate_weather_command (command : Command) (analysis : Analysis) : Command :=
  let user_input := toLowerStr analysis.original_input
  let command :=
    if ["tomorrow", "forecast", "next"].any (containsSub user_input) then
      { command with type_ := some "forecast" }
    else { command with type_ := some "current" }
  match lookupAssoc analysis.entities "location" with
  | some (e :: _) =>
    { command with parameters := setAssoc command.parameters "location" e.value }
  | _ => command

/-- `_generate_timer_command`. -/
def generate_timer_command (command : Command) (analysis : Analysis) : Command :=
  let user_input := toLowerStr analysis.original_input
  if ["set", "start", "create"].any (containsSub user_input) then
    let command := { command with action := some "set" }
    match lookupAssoc analysis.entities "duration" with
    | some (e :: _) =>
      { command with parameters := setAssoc command.parameters "duration" e.value }
    | _ => command
  else if ["cancel", "stop", "delete"].any (containsSub user_input) then
    { command with action := some "cancel" }
  else if ["check", "status"].any (containsSub user_input) then
    { command with action := some "check" }
  else command

/-- `generate_command`. -/
def generate_command (analysis : Analysis) : Command :=
  match analysis.intents with
  | [] => { error := some "No intent detected" }
  | primary_intent :: _ =>
    let intent_name := primary_intent.intent
    let parameters :=
      ((lookupAssoc command_template_parameters intent_name).getD []).foldl
        (fun ps param =>
          match lookupAssoc analysis.entities param with
          | some (e :: _) => setAssoc ps param e.value
          | _ => ps) []
    let command : Command :=
      { intent := some intent_name, confidence := analysis.confidence, parameters }
    if intent_name == "music" then generate_music_command command analysis
    else if intent_name == "weather" then generate_weather_command command analysis
    else if intent_name == "timer" then generate_timer_command command analysis
    else command

end NLUEngine

end Jarvis

namespace Jarvis

/-! ## Intent Resolver (`modules/intent_resolver.py`)

The resolver owns one Store and one engine; here the Store state, the clock
and the NLU oracle are explicit arguments. -/

namespace IntentResolver

open NLUEngine
open ConversationContext (Context)

/-- The `{'function': ..., 'method': ..., 'parameters': ..., 'error': ...}`
records built by the per-intent resolver functions (the error branches carry
only `function`/`error`, hence the optional `method`). -/
structure FunctionCall where
  function : Option String := none
  method : Option String := none
  parameters : List (String × String) := []
  error : Option String := none
  deriving DecidableEq

/-- `re.search(r'(\d+\s*[\+\-\*\/]\s*\d+)', s)`: earliest digits-operator-digits
slice, with the intervening spacing, as `group(1)`. -/
def isOpCh (c : Char) : Bool := c == '+' || c == '-' || c == '*' || c == '/'

/-- Scanner for the calculator expression regex. -/
def mathSearchAux : List Char → Option String
  | [] => none
  | c :: rest =>
    let here :=
      if c.isDigit then
        let d1 := (c :: rest).takeWhile Char.isDigit
        let r1 := (c :: rest).dropWhile Char.isDigit
        let r2 := r1.dropWhile isSpaceCh
        match r2 with
        | op :: r3 =>
          if isOpCh op then
            let r4 := r3.dropWhile isSpaceCh
            let d2 := r4.takeWhile Char.isDigit
            if !d2.isEmpty then
              some (listToStr (d1 ++ r1.takeWhile isSpaceCh ++ [op]
                ++ r3.takeWhile isSpaceCh ++ d2))
            else none
          else none
        | [] => none
      else none
    match here with
    | some m => some m
    | none => mathSearchAux rest

/-- The calculator expression search on a string. -/
def mathSearch (s : String) : Option String := mathSearchAux s.toList

/-- The `word_to_num` table of `_extract_math_from_words`. -/
def word_to_num : List (String × String) :=
  [("zero", "0"), ("one", "1"), ("two", "2"), ("three", "3"), ("four", "4"),
   ("five", "5"), ("six", "6"), ("seven", "7"), ("eight", "8"), ("nine", "9"),
   ("ten", "10"), ("eleven", "11"), ("twelve", "12"), ("thirteen", "13"),
   ("fourteen", "14"), ("fifteen", "15"), ("sixteen", "16"), ("seventeen", "17"),
   ("eighteen", "18"), ("nineteen", "19"), ("twenty", "20")]

/-- The `word_to_op` table of `_extract_math_from_words`. -/
def word_to_op : List (String × String) :=
  [("plus", "+"), ("add", "+"), ("added to", "+"),
   ("minus", "-"), ("subtract", "-"), ("take away", "-"),
   ("times", "*"), ("multiply", "*"), ("multiplied by", "*"),
   ("divide", "/"), ("divided by", "/")]

/-- The operator alternation of the pattern
`(\w+)\s+(plus|minus|times|divide|add|subtract|multiply)\s+(\w+)`. -/
def math_word_ops : List String :=
  ["plus", "minus", "times", "divide", "add", "subtract", "multiply"]

/-- Scanner for the word-arithmetic pattern: at each position, a maximal word
run, whitespace, one of the operator words, whitespace, a word run. -/
def mathWordsSearchAux : List Char → Option (String × String × String)
  | [] => none
  | c :: rest =>
    let here :=
      if isWordChar c then
        let w1 := (c :: rest).takeWhile isWordChar
        let r1 := (c :: rest).dropWhile isWordChar
        let sp1 := r1.takeWhile isSpaceCh
        let r2 := r1.dropWhile isSpaceCh
        if sp1.isEmpty then none
        else
          (math_word_ops.filterMap (fun op =>
            if listPrefixOf op.toList r2 then
              let r3 := r2.drop op.length
              let sp2 := r3.takeWhile isSpaceCh
              let r4 := r3.dropWhile isSpaceCh
              let w2 := r4.takeWhile isWordChar
              if !sp2.isEmpty && !w2.isEmpty then
                some (listToStr w1, op, listToStr w2)
              else none
            else none)).head?
      else none
    match here with
    | some m => some m
    | none => mathWordsSearchAux rest

/-- `_extract_math_from_words`. -/
def extract_math_from_words (text : String) : Option String :=
  let text_lower := toLowerStr text
  match mathWordsSearchAux text_lower.toList with
  | none => none
  | some (num1_word, op_word, num2_word) =>
    let num1 := (lookupAssoc word_to_num num1_word).getD num1_word
    let num2 := (lookupAssoc word_to_num num2_word).getD num2_word
    let op := (lookupAssoc word_to_op op_word).getD op_word
    if num1 ≠ "" && num1.toList.all Char.isDigit
        && num2 ≠ "" && num2.toList.all Char.isDigit
        && ["+", "-", "*", "/"].contains op then
      some (num1 ++ " " ++ op ++ " " ++ num2)
    else none

/-- Alternation-aware capture scanner for
`(?:tell me about|what is|information about)\s+(.+)`: at each position the
alternatives are tried in written order. -/
def multiPhraseCaptureAux (phrases : List (List Char)) : List Char → Option (List Char)
  | [] => none
  | c :: rest =>
    let here := (phrases.filterMap (fun ph =>
      if listPrefixOfCI ph (c :: rest) then captureRest ((c :: rest).drop ph.length)
      else none)).head?
    match here with
    | some cap => some cap
    | none => multiPhraseCaptureAux phrases rest

/-- Search an alternation of literal phrases followed by `\s+(.+)` and strip
the capture. -/
def multiPhraseCapture (phrases : List String) (text : String) : Option String :=
  (multiPhraseCaptureAux (phrases.map String.toList) text.toList).map
    (fun cs => trimStr (listToStr cs))

/-- The capture of `(?:search|google)\s+(?:for\s+)?(.+)` after the keyword:
whitespace, an optional `for` plus whitespace, then the remainder, with the
backtracking rules of the optional group. -/
def webCaptureAfter (rest : List Char) : Option (List Char) :=
  let w := rest.takeWhile isSpaceCh
  let r1 := rest.dropWhile isSpaceCh
  if w.isEmpty then none
  else if listPrefixOfCI "for".toList r1 then
    let r2 := r1.drop 3
    let w2 := r2.takeWhile isSpaceCh
    let r3 := r2.dropWhile isSpaceCh
    if !w2.isEmpty then
      if !r3.isEmpty then some r3
      else if 2 ≤ w2.length then some [' ']
      else if !r1.isEmpty then some r1
      else none
    else if !r1.isEmpty then some r1
    else none
  else if !r1.isEmpty then some r1
  else if 2 ≤ w.length then some [' ']
  else none

/-- Scanner for `(?:search|google)\s+(?:for\s+)?(.+)` (IGNORECASE). -/
def searchQueryCaptureAux : List Char → Option (List Char)
  | [] => none
  | c :: rest =>
    let here :=
      if listPrefixOfCI "search".toList (c :: rest) then
        webCaptureAfter ((c :: rest).drop 6)
      else if listPrefixOfCI "google".toList (c :: rest) then
        webCaptureAfter ((c :: rest).drop 6)
      else none
    match here with
    | some cap => some cap
    | none => searchQueryCaptureAux rest

/-- The web search query capture, stripped. -/
def searchQueryCapture (s : String) : Option String :=
  (searchQueryCaptureAux s.toList).map (fun cs => trimStr (listToStr cs))

/-- `_resolve_weather_command`. -/
def resolve_weather_command (command : Command) (analysis : Analysis) (context : Context) :
    FunctionCall :=
  let location : Option String :=
    if (lookupAssoc command.parameters "location").isSome then
      lookupAssoc command.parameters "location"
    else if truthyOptStr (lookupAssoc context.context_vars "last_location") then
      lookupAssoc context.context_vars "last_location"
    else none
  let function_call : FunctionCall :=
    { function := some "weather", method := some "get_weather",
      parameters := if truthyOptStr location then [("location", location.getD "")] else [] }
  if command.type_ == some "forecast" then { function_call with method := some "get_forecast" }
  else function_call

/-- `_resolve_music_command`. -/
def resolve_music_command (command : Command) (analysis : Analysis) (context : Context) :
    FunctionCall :=
  let action := command.action.getD "play"
  let function_call : FunctionCall :=
    { function := some "music", method := some (action ++ "_music") }
  if action == "play" then
    let query : Option String :=
      if (lookupAssoc command.parameters "query").isSome then
        lookupAssoc command.parameters "query"
      else if truthyOptStr (lookupAssoc context.context_vars "last_music_query") then
        lookupAssoc context.context_vars "last_music_query"
      else none
    if truthyOptStr query then
      { function_call with parameters := [("query", query.getD "")] }
    else
      match phraseCapture "play" analysis.original_input with
      | some q => { function_call with parameters := [("query", q)] }
      | none => function_call
  else function_call

/-- `_resolve_timer_command`. -/
def resolve_timer_command (command : Command) (analysis : Analysis) (context : Context) :
    FunctionCall :=
  let action := command.action.getD "set"
  let function_call : FunctionCall :=
    { function := some "timer", method := some (action ++ "_timer") }
  if action == "set" then
    let duration : Option String :=
      if (lookupAssoc command.parameters "duration").isSome then
        lookupAssoc command.parameters "duration"
      else timerSearch analysis.original_input
    if truthyOptStr duration then
      { function_call with parameters := [("duration", duration.getD "")] }
    else function_call
  else function_call

/-- `_resolve_calculator_command`. -/
def resolve_calculator_command (command : Command) (analysis : Analysis) (context : Context) :
    FunctionCall :=
  let function_call : FunctionCall :=
    { function := some "calculator", method := some "calculate" }
  match mathSearch analysis.original_input with
  | some expr => { function_call with parameters := [("expression", expr)] }
  | none =>
    match extract_math_from_words analysis.original_input with
    | some expr => { function_call with parameters := [("expression", expr)] }
    | none => function_call

/-- `_resolve_time_command`. -/
def resolve_time_command (command : Command) (analysis : Analysis) (context : Context) :
    FunctionCall :=
  { function := some "time", method := some "get_current_time" }

/-- `_resolve_calendar_command`. -/
def resolve_calendar_command (command : Command) (analysis : Analysis) (context : Context) :
    FunctionCall :=
  { function := some "calendar", method := some "get_events" }

/-- `_resolve_system_command`. -/
def resolve_system_command (command : Command) (analysis : Analysis) (context : Context) :
    FunctionCall :=
  { function := some "system", method := some "get_system_info" }

/-- `_resolve_web_command`. -/
def resolve_web_command (command : Command) (analysis : Analysis) (context : Context) :
    FunctionCall :=
  let function_call : FunctionCall :=
    { function := some "web", method := some "search" }
  match lookupAssoc analysis.entities "search_query" with
  | some (e :: _) => { function_call with parameters := [("query", e.value)] }
  | _ =>
    match searchQueryCapture analysis.original_input with
    | some q => { function_call with parameters := [("query", q)] }
    | none => function_call

/-- `_resolve_email_command`. -/
def resolve_email_command (command : Command) (analysis : Analysis) (context : Context) :
    FunctionCall :=
  { function := some "email", method := some "check_email" }

/-- `_resolve_news_command`. -/
def resolve_news_command (command : Command) (analysis : Analysis) (context : Context) :
    FunctionCall :=
  { function := some "news", method := some "get_headlines" }

/-- `_resolve_wikipedia_command`: `topic_patterns` tried in order, first
match wins. -/
def resolve_wikipedia_command (command : Command) (analysis : Analysis) (context : Context) :
    FunctionCall :=
  let function_call : FunctionCall :=
    { function := some "wikipedia", method := some "search" }
  let topic :=
    match multiPhraseCapture ["tell me about", "what is", "information about"]
        analysis.original_input with
    | some t => some t
    | none =>
      match phraseCapture "wikipedia" analysis.original_input with
      | some t => some t
      | none => phraseCapture "wiki" analysis.original_input
  match topic with
  | some t => { function_call with parameters := [("topic", t)] }
  | none => function_call

/-- `_resolve_joke_command`. -/
def resolve_joke_command (command : Command) (analysis : Analysis) (context : Context) :
    FunctionCall :=
  { function := some "joke", method := some "tell_joke" }

/-- `_resolve_greeting_command`. -/
def resolve_greeting_command (command : Command) (analysis : Analysis) (context : Context) :
    FunctionCall :=
  { function := some "greeting", method := some "respond_greeting" }

/-- `_resolve_goodbye_command`. -/
def resolve_goodbye_command (command : Command) (analysis : Analysis) (context : Context) :
    FunctionCall :=
  { function := some "goodbye", method := some "respond_goodbye" }

/-- `_resolve_help_command`. -/
def resolve_help_command (command : Command) (analysis : Analysis) (context : Context) :
    FunctionCall :=
  { function := some "help", method := some "show_help" }

/-- The keys of `self.command_mappings` (constructor), in insertion order. -/
def command_mappings : List String :=
  ["weather", "music", "timer", "calculator", "time", "calendar", "system", "web",
   "email", "news", "wikipedia", "joke", "greeting", "goodbye", "help"]

/-- `_resolve_to_function_call`: dispatch on the intent through
`command_mappings` (`if not command.get('intent')` is Python truthiness; the
`try`/`except` around the resolver call is dead here because the embedded
resolvers are total). -/
def resolve_to_function_call (command : Command) (analysis : Analysis) (context : Context) :
    FunctionCall :=
  if !truthyOptStr command.intent then
    { function := none, error := some "No intent detected" }
  else
    let intent := command.intent.getD ""
    if !command_mappings.contains intent then
      { function := none, error := some ("No resolver for intent: " ++ intent) }
    else if intent == "weather" then resolve_weather_command command analysis context
    else if intent == "music" then resolve_music_command command analysis context
    else if intent == "timer" then resolve_timer_command command analysis context
    else if intent == "calculator" then resolve_calculator_command command analysis context
    else if intent == "time" then resolve_time_command command analysis context
    else if intent == "calendar" then resolve_calendar_command command analysis context
    else if intent == "system" then resolve_system_command command analysis context
    else if intent == "web" then resolve_web_command command analysis context
    else if intent == "email" then resolve_email_command command analysis context
    else if intent == "news" then resolve_news_command command analysis context
    else if intent == "wikipedia" then resolve_wikipedia_command command analysis context
    else if intent == "joke" then resolve_joke_command command analysis context
    else if intent == "greeting" then resolve_greeting_command command analysis context
    else if intent == "goodbye" then resolve_goodbye_command command analysis context
    else resolve_help_command command analysis context

/-- `_needs_clarification`. -/
def needs_clarification (analysis : Analysis) (context : Context) : Bool :=
  if analysis.confidence < 0.5 then true
  else
    match analysis.intents with
    | a :: b :: _ =>
      if a.confidence - b.confidence < 0.2 then true
      else analysis.ambiguity.has_ambiguity && !truthyOptStr context.referenced_topic
    | _ => analysis.ambiguity.has_ambiguity && !truthyOptStr context.referenced_topic

/-- The dictionary returned by `resolve_intent`. -/
structure Response where
  original_input : String
  resolved_command : FunctionCall
  analysis : Analysis
  context : Context
  confidence : ℚ
  needs_clarification : Bool
  deriving DecidableEq

/-- `resolve_intent`: note that the follow-up branch reassigns the local
`user_input` to the rewritten text, which is then reported as
`original_input`. -/
def resolve_intent (st : ConversationContext) (now : Int) (osc : NLUOracle)
    (user_input : String) : Response :=
  let context := ConversationContext.get_context_for_input st now user_input
  let step :=
    if context.is_follow_up then
      let follow_up_result := ConversationContext.resolve_follow_up st now user_input
      if follow_up_result.resolved then
        (follow_up_result.resolved_input.getD user_input,
         { context with follow_up_resolved := true })
      else (user_input, context)
    else (user_input, context)
  let user_input := step.1
  let context := step.2
  let analysis := analyze_input osc user_input (some context)
  let command := generate_command analysis
  let resolved_command := resolve_to_function_call command analysis context
  { original_input := user_input,
    resolved_command,
    analysis,
    context,
    confidence := analysis.confidence,
    needs_clarification := IntentResolver.needs_clarification analysis context }

end IntentResolver

end Jarvis

namespace Jarvis

/-! ## Theorems

Shared concrete instances used by witnesses and counterexamples. -/

/-- A concrete listener oracle: NLTK available, every token tagged `NN`, the
stopword set being the source's fallback list. -/
def listenerOracle0 : ContinuousListener.ListenerOracle :=
  { nlpAvailable := true, posTagAt := fun _ _ => "NN",
    stop_words := fun w => ContinuousListener.fallback_stop_words.contains w }

/-- A concrete NLU oracle: no table regex matches, no entity matches, no
spaCy model. -/
def nluOracle0 : NLUEngine.NLUOracle :=
  { matchesPattern := fun _ _ => false, entityMatches := fun _ _ => [],
    nlpAvailable := false, spacyEnts := fun _ => [], parsedStruct := fun _ => {} }

open ConversationContext in
/-- C9 counterexample: the claim says `clear_context` resets entity state so
that no recently-mentioned entities are reported afterwards.  But
`clear_context` does not touch `self.entities`, so an entity recorded just
before the clear is still reported by `_get_recent_entities`. -/
theorem claim9_counterexample :
    get_recent_entities
        (clear_context (add_interaction {} 100 "remember Bob" "ok" none (some ["Bob"]))) 100
      = ["Bob"]
    ∧ (["Bob"] : List String) ≠ [] := by
  constructor
  · rfl
  · decide

open ConversationContext in
/-- C9 amended: `clear_context` resets the current topic/entity fields, the
last command type and the context variables, and preserves the conversation
history — but it leaves the `EntityMemory` untouched, so recently-mentioned
entities are still reported afterwards. -/
theorem claim9_clear_context_amended (st : ConversationContext) :
    (clear_context st).last_command_type = none
    ∧ (clear_context st).current_topic = none
    ∧ (clear_context st).current_entity = none
    ∧ (clear_context st).context_vars = []
    ∧ (clear_context st).conversation_history = st.conversation_history
    ∧ (clear_context st).entities = st.entities
    ∧ (∀ now, get_recent_entities (clear_context st) now = get_recent_entities st now) := by
  refine ⟨rfl, rfl, rfl, rfl, rfl, rfl, fun now => rfl⟩

open ConversationContext in
/-- C6: whenever the last response lies further back than `context_timeout`,
`resolve_follow_up` answers `resolved=false` with the original input and
nothing else, regardless of any lexical cues in the utterance. -/
theorem claim6_timeout_blocks_follow_up (st : ConversationContext) (now t : Int)
    (user_input : String) (hlast : st.last_response_time = some t)
    (htimeout : st.context_timeout < now - t) :
    resolve_follow_up st now user_input
      = { resolved := false, original_input := user_input } := by
  have hfu : is_follow_up_question st now user_input = false := by
    unfold is_follow_up_question
    rw [hlast]
    simp [htimeout]
  unfold resolve_follow_up get_context_for_input
  simp [hfu]

open ConversationContext in
/-- C6 witness: a store that answered at time 0 with a 300-second timeout,
asked a cue-laden follow-up at time 301. -/
theorem claim6_witness :
    resolve_follow_up { last_response_time := some 0, context_timeout := 300 } 301
        "what about tomorrow"
      = { resolved := false, original_input := "what about tomorrow" } :=
  claim6_timeout_blocks_follow_up _ 301 0 _ rfl (by norm_num)

end Jarvis

namespace Jarvis

/-! ### History bound and FIFO eviction (C5, C10) -/

/-- The suffix of the last `N` elements of a list. -/
def lastN {α : Type} (N : Nat) (l : List α) : List α := l.drop (l.length - N)

theorem lastN_of_le {α : Type} (N : Nat) (l : List α) (h : l.length ≤ N) :
    lastN N l = l := by
  unfold lastN
  rw [Nat.sub_eq_zero_of_le h, List.drop_zero]

theorem lastN_length_le {α : Type} (N : Nat) (l : List α) : (lastN N l).length ≤ N := by
  unfold lastN
  rw [List.length_drop]
  omega

theorem lastN_cons_of_le {α : Type} (N : Nat) (a : α) (l : List α) (h : N ≤ l.length) :
    lastN N (a :: l) = lastN N l := by
  unfold lastN
  have hlen : (a :: l).length - N = (l.length - N) + 1 := by
    simp only [List.length_cons]
    omega
  rw [hlen]
  rfl

theorem lastN_lastN_append {α : Type} (N : Nat) (l m : List α) :
    lastN N (lastN N l ++ m) = lastN N (l ++ m) := by
  induction l with
  | nil => simp [lastN]
  | cons a l ih =>
    rcases le_or_lt (a :: l).length N with h | h
    · rw [lastN_of_le _ _ h]
    · have h' : N ≤ l.length := by
        simp only [List.length_cons] at h
        omega
      have h'' : N ≤ (l ++ m).length := by
        rw [List.length_append]
        omega
      rw [lastN_cons_of_le _ _ _ h', List.cons_append, lastN_cons_of_le _ _ _ h'', ih]

/-- The argument tuple of one `add_interaction` call. -/
structure AddCall where
  now : Int
  user_input : String
  jarvis_response : String
  command_type : Option String := none
  entities : Option (List String) := none
  deriving DecidableEq

/-- The `Interaction` record an `add_interaction` call appends. -/
def interactionOf (a : AddCall) : Interaction :=
  { timestamp := a.now, user_input := a.user_input, jarvis_response := a.jarvis_response,
    command_type := a.command_type, entities := a.entities.getD [] }

/-- A sequence of `add_interaction` calls, oldest first. -/
def applyAdds (st : ConversationContext) (calls : List AddCall) : ConversationContext :=
  calls.foldl
    (fun st a =>
      ConversationContext.add_interaction st a.now a.user_input a.jarvis_response
        a.command_type a.entities) st

open ConversationContext in
theorem update_context_vars_fields (st : ConversationContext) (ui : String)
    (ct : Option String) :
    (update_context_vars st ui ct).conversation_history = st.conversation_history
    ∧ (update_context_vars st ui ct).last_command_type = st.last_command_type
    ∧ (update_context_vars st ui ct).max_history = st.max_history
    ∧ (update_context_vars st ui ct).last_response_time = st.last_response_time := by
  unfold update_context_vars
  split_ifs
  · cases locationSearch ui <;> exact ⟨rfl, rfl, rfl, rfl⟩
  · cases phraseCapture "play" ui <;> exact ⟨rfl, rfl, rfl, rfl⟩
  · cases timerSearch ui <;> exact ⟨rfl, rfl, rfl, rfl⟩
  · exact ⟨rfl, rfl, rfl, rfl⟩

open ConversationContext in
theorem add_interaction_fields (st : ConversationContext) (a : AddCall) :
    (add_interaction st a.now a.user_input a.jarvis_response a.command_type
        a.entities).conversation_history
      = (if st.max_history < (st.conversation_history ++ [interactionOf a]).length then
          (st.conversation_history ++ [interactionOf a]).drop 1
        else st.conversation_history ++ [interactionOf a])
    ∧ (add_interaction st a.now a.user_input a.jarvis_response a.command_type
        a.entities).last_command_type = a.command_type
    ∧ (add_interaction st a.now a.user_input a.jarvis_response a.command_type
        a.entities).max_history = st.max_history
    ∧ (add_interaction st a.now a.user_input a.jarvis_response a.command_type
        a.entities).last_response_time = some a.now := by
  unfold add_interaction
  have h := fun st' => update_context_vars_fields st' a.user_input a.command_type
  rcases ha : a.entities with _ | es
  · refine ⟨?_, ?_, ?_, ?_⟩ <;>
      simp [interactionOf, ha, (h _).1, (h _).2.1, (h _).2.2.1, (h _).2.2.2]
  · by_cases he : es.isEmpty <;>
      refine ⟨?_, ?_, ?_, ?_⟩ <;>
        simp [interactionOf, ha, he, (h _).1, (h _).2.1, (h _).2.2.1, (h _).2.2.2]

theorem if_drop_eq_lastN {α : Type} (N : Nat) (l : List α) (x : α) (h : l.length ≤ N) :
    (if N < (l ++ [x]).length then (l ++ [x]).drop 1 else l ++ [x])
      = lastN N (l ++ [x]) := by
  have hlen : (l ++ [x]).length = l.length + 1 := by simp
  split_ifs with hlt
  · have hN : l.length = N := by omega
    unfold lastN
    rw [hlen, hN, Nat.add_sub_cancel_left]
  · have h0 : (l ++ [x]).length - N = 0 := by omega
    unfold lastN
    rw [h0, List.drop_zero]

open ConversationContext in
theorem applyAdds_history (calls : List AddCall) (st : ConversationContext)
    (h : st.conversation_history.length ≤ st.max_history) :
    (applyAdds st calls).conversation_history
        = lastN st.max_history (st.conversation_history ++ calls.map interactionOf)
    ∧ (applyAdds st calls).max_history = st.max_history := by
  induction calls generalizing st with
  | nil =>
    constructor
    · simp only [applyAdds, List.foldl_nil, List.map_nil, List.append_nil]
      exact (lastN_of_le _ _ h).symm
    · rfl
  | cons a calls ih =>
    set st' := add_interaction st a.now a.user_input a.jarvis_response a.command_type a.entities
      with hst'
    have hf := add_interaction_fields st a
    have hhist : st'.conversation_history
        = lastN st.max_history (st.conversation_history ++ [interactionOf a]) := by
      rw [hf.1, if_drop_eq_lastN _ _ _ h]
    have hmax : st'.max_history = st.max_history := hf.2.2.1
    have hlen : st'.conversation_history.length ≤ st'.max_history := by
      rw [hhist, hmax]
      exact lastN_length_le _ _
    have hstep : applyAdds st (a :: calls) = applyAdds st' calls := rfl
    have hih := ih st' hlen
    constructor
    · rw [hstep, hih.1, hhist, hmax, lastN_lastN_append]
      simp
    · rw [hstep, hih.2, hmax]

/-- C5 counterexample data: a snapshot holding two well-formed interactions. -/
def c5File : Json :=
  Json.obj
    [("conversation_history", Json.arr
        [ConversationContext.encodeInteraction
          { timestamp := 1, user_input := "a", jarvis_response := "b",
            command_type := none, entities := [] },
         ConversationContext.encodeInteraction
          { timestamp := 2, user_input := "c", jarvis_response := "d",
            command_type := none, entities := [] }]),
     ("context_vars", Json.obj []),
     ("entities", Json.obj [])]

open ConversationContext in
/-- C5 counterexample: the claim says the interaction count never exceeds
`max_history` under every operation.  `load_context` restores the file's
history verbatim: loading a two-interaction snapshot into a store with
`max_history = 1` leaves a history of length 2. -/
theorem claim5_counterexample :
    (load_context { max_history := 1 } (some c5File)).max_history
      < (load_context { max_history := 1 } (some c5File)).conversation_history.length := by
  decide

open ConversationContext in
/-- C5 amended: under `add_interaction` the bound does hold — starting from an
empty store with `max_history = N`, any sequence of `N + k` additions leaves
exactly the last `N` interactions, in their original relative order, and the
count never exceeds `N`; `load_context`, however, restores the file's history
without truncation and can exceed the bound. -/
theorem claim5_fifo_amended (N : Nat) (timeout : Int) (calls : List AddCall) :
    (applyAdds { max_history := N, context_timeout := timeout } calls).conversation_history
        = lastN N (calls.map interactionOf)
    ∧ (applyAdds { max_history := N, context_timeout := timeout }
        calls).conversation_history.length ≤ N := by
  have h := applyAdds_history calls { max_history := N, context_timeout := timeout }
    (by simp)
  constructor
  · rw [h.1]
    rfl
  · rw [h.1]
    exact lastN_length_le _ _

open ConversationContext in
/-- C10: every `add_interaction` call overwrites `last_command_type` with its
`command_type` argument, null included; and after any nonempty sequence of
additions whose command types are all null, `_get_referenced_topic` answers
null for every utterance. -/
theorem claim10_null_command_type_erases_topic :
    (∀ (st : ConversationContext) (now : Int) (ui jr : String) (ct : Option String)
        (es : Option (List String)),
      (add_interaction st now ui jr ct es).last_command_type = ct)
    ∧ (∀ (st : ConversationContext) (calls : List AddCall) (user_input : String),
        calls ≠ [] → (∀ a ∈ calls, a.command_type = none) →
        get_referenced_topic (applyAdds st calls) user_input = none) := by
  constructor
  · intro st now ui jr ct es
    have hA := add_interaction_fields st
      { now := now, user_input := ui, jarvis_response := jr, command_type := ct, entities := es }
    exact hA.2.1
  · intro st calls user_input hne hnone
    rcases List.eq_nil_or_concat calls with rfl | ⟨L, y, hly⟩
    · exact absurd rfl hne
    · rw [List.concat_eq_append] at hly
      subst hly
      have hlast : (applyAdds st (L ++ [y])).last_command_type = y.command_type := by
        have : applyAdds st (L ++ [y])
            = add_interaction (applyAdds st L) y.now y.user_input y.jarvis_response
                y.command_type y.entities := by
          simp [applyAdds, List.foldl_append]
        rw [this]
        exact (add_interaction_fields (applyAdds st L) y).2.1
      have hy : y.command_type = none := hnone y (by simp)
      unfold get_referenced_topic
      rw [hlast, hy]
      rfl

open ConversationContext in
/-- C10 witness: one addition with a null command type; afterwards a
pronoun-carrying utterance gets no referenced topic. -/
theorem claim10_witness :
    get_referenced_topic
        (applyAdds {} [{ now := 5, user_input := "hello", jarvis_response := "hi" }]) "that"
      = none :=
  claim10_null_command_type_erases_topic.2 {}
    [{ now := 5, user_input := "hello", jarvis_response := "hi" }] "that"
    (by decide) (by decide)

end Jarvis

namespace Jarvis

/-! ### Persistence: round trip and failure behaviour (C4, C8) -/

open ConversationContext

theorem decodeOptStr_encodeOptStr (o : Option String) :
    decodeOptStr (encodeOptStr o) = some o := by
  cases o <;> rfl

theorem decodeStrList_map_str (l : List String) :
    decodeStrList (l.map Json.str) = some l := by
  induction l with
  | nil => rfl
  | cons s l ih => simp [decodeStrList, ih, asStr]

theorem decodeInteraction_encodeInteraction (i : Interaction) :
    decodeInteraction (encodeInteraction i) = some i := by
  rcases i with ⟨t, ui, jr, ct, es⟩
  simp [decodeInteraction, encodeInteraction, jsonLookup, decodeTimestamp, asStr,
        decodeStrList_map_str, decodeOptStr_encodeOptStr, encodeTimestamp]

theorem restoreHistory_encodes (l : List Interaction) (acc : List Interaction) :
    restoreHistory acc (l.map encodeInteraction) = (acc ++ l, true) := by
  induction l generalizing acc with
  | nil => simp [restoreHistory]
  | cons i l ih => simp [restoreHistory, decodeInteraction_encodeInteraction, ih]

theorem restoreHistory_stops (pre : List Interaction) (acc : List Interaction) (bad : Json)
    (post : List Json) (hbad : decodeInteraction bad = none) :
    restoreHistory acc (pre.map encodeInteraction ++ bad :: post) = (acc ++ pre, false) := by
  induction pre generalizing acc with
  | nil => simp [restoreHistory, hbad]
  | cons i pre ih => simp [restoreHistory, decodeInteraction_encodeInteraction, ih]

theorem decodeStrMap_encodes (l : List (String × String)) :
    decodeStrMap (l.map (fun p => (p.1, Json.str p.2))) = some l := by
  induction l with
  | nil => rfl
  | cons p l ih => simp [decodeStrMap, asStr, ih]

theorem decodeEntities_encodes (l : List (String × Int)) :
    decodeEntities (l.map (fun p => (p.1, encodeTimestamp p.2))) = some l := by
  induction l with
  | nil => rfl
  | cons p l ih =>
    simp only [encodeTimestamp] at ih
    simp [decodeEntities, encodeTimestamp, decodeTimestamp, ih]

/-- C8: saving a store and loading the snapshot into a fresh store reproduces
the conversation history (timestamps included), the context variables and the
entity memory exactly. -/
theorem claim8_round_trip (st : ConversationContext) :
    (load_context {} (some (save_context st))).conversation_history = st.conversation_history
    ∧ (load_context {} (some (save_context st))).context_vars = st.context_vars
    ∧ (load_context {} (some (save_context st))).entities = st.entities := by
  have h1 := restoreHistory_encodes st.conversation_history []
  have h2 := decodeStrMap_encodes st.context_vars
  have h3 := decodeEntities_encodes st.entities
  unfold load_context save_context
  simp only [jsonLookup, List.find?, Option.getD, Option.map, beq_self_eq_true,
    String.reduceBEq, h1, h2, h3, List.nil_append, Bool.not_true]
  cases hl : st.conversation_history.getLast? <;> simp [hl]

end Jarvis

namespace Jarvis

open ConversationContext

/-- C4 counterexample data: a store with prior state. -/
def c4Store : ConversationContext :=
  { conversation_history :=
      [{ timestamp := 5, user_input := "hello", jarvis_response := "hi",
         command_type := none, entities := [] }],
    context_vars := [("last_location", "Paris")],
    entities := [("Paris", 5)] }

/-- C4 counterexample data: a snapshot whose second history record has a
malformed timestamp. -/
def c4File : Json :=
  Json.obj
    [("conversation_history", Json.arr
        [encodeInteraction
          { timestamp := 7, user_input := "play jazz", jarvis_response := "ok",
            command_type := some "music", entities := [] },
         Json.obj [("timestamp", Json.str "not-a-timestamp")]]),
     ("context_vars", Json.obj [("last_music_query", Json.str "jazz")]),
     ("entities", Json.obj [])]

/-- C4 counterexample: the claim says a deserialization failure leaves the
in-memory state uncorrupted — the prior state, with no partial mutation.  A
snapshot whose second record has a malformed timestamp instead replaces
`conversation_history` with the parsed prefix while `context_vars` keeps its
prior value: the state after the failure is neither the prior state nor the
file's, i.e. a partial mutation. -/
theorem claim4_counterexample :
    (load_context c4Store (some c4File)).conversation_history
        ≠ c4Store.conversation_history
    ∧ (load_context c4Store (some c4File)).context_vars = c4Store.context_vars := by
  decide

/-- C4 amended: `load_context` never raises; an I/O or JSON-parse failure
(raised inside `json.load`) mutates nothing, but a record with a malformed
timestamp stops the restore loop mid-way, leaving `conversation_history`
replaced by the successfully parsed prefix while `context_vars` and `entities`
keep their prior values. -/
theorem claim4_load_failure_amended (st : ConversationContext) (pre : List Interaction)
    (bad : Json) (post : List Json) (hbad : decodeInteraction bad = none) :
    load_context st none = st
    ∧ load_context st (some (Json.obj [("conversation_history",
          Json.arr (pre.map encodeInteraction ++ bad :: post))]))
        = { st with conversation_history := pre } := by
  refine ⟨rfl, ?_⟩
  have h := restoreHistory_stops pre [] bad post hbad
  unfold load_context
  simp only [jsonLookup, List.find?, Option.getD, Option.map, String.reduceBEq,
    beq_self_eq_true, h, List.nil_append, Bool.not_false, if_true]

/-- C4 witness: the amended theorem applied to an empty parsed prefix and a
concrete malformed record. -/
theorem claim4_witness :
    load_context ({} : ConversationContext) none = {}
    ∧ load_context {} (some (Json.obj [("conversation_history",
          Json.arr [Json.obj [("timestamp", Json.str "not-a-timestamp")]])]))
        = { ({} : ConversationContext) with conversation_history := [] } :=
  claim4_load_failure_amended {} [] (Json.obj [("timestamp", Json.str "not-a-timestamp")])
    [] (by decide)

end Jarvis

namespace Jarvis

/-! ### Utterance segmentation (C2) -/

open ContinuousListener

/-- The segmenter on the scenario transcript always hands `clean_command` the
text after the list-order wake word `"jarvis"` (everything else is concrete). -/
theorem extract_scenario_eq_clean (osc : ListenerOracle) :
    extract_wake_word_and_command osc ["jarvis", "hey jarvis"] "Hey Jarvis play some music"
      = (some "jarvis", some (clean_command osc "play some music")) := by
  rfl

/-- Whatever tags the external tagger produces, and whichever stopword set the
instance holds — as long as it does not contain `"music"`, which is true of
both NLTK's English list and the in-source fallback — cleaning
`"play some music"` keeps `play` (whitelisted) and `music`; `some` survives or
is dropped depending on its tag and on whether the stopword set contains it. -/
theorem clean_play_some_music (osc : ListenerOracle)
    (hmus : osc.stop_words "music" = false) :
    clean_command osc "play some music" = "play some music"
      ∨ clean_command osc "play some music" = "play music" := by
  have kplay : ∀ tag : String,
      (if important_pos.contains tag then some "play"
       else if command_keep_words.contains "play" then some "play"
       else if !osc.stop_words "play" && !is_filter_word "play" then some "play"
       else none) = some "play" := by
    intro tag
    have helse : (if command_keep_words.contains "play" then some "play"
        else if !osc.stop_words "play" && !is_filter_word "play" then some "play"
        else none) = some "play" := by
      rw [show command_keep_words.contains "play" = true from by decide]
      simp
    rw [helse, ite_self]
  have kmusic : ∀ tag : String,
      (if important_pos.contains tag then some "music"
       else if command_keep_words.contains "music" then some "music"
       else if !osc.stop_words "music" && !is_filter_word "music" then some "music"
       else none) = some "music" := by
    intro tag
    have helse : (if command_keep_words.contains "music" then some "music"
        else if !osc.stop_words "music" && !is_filter_word "music" then some "music"
        else none) = some "music" := by
      rw [hmus]
      decide
    rw [helse, ite_self]
  have hsome : (if important_pos.contains (osc.posTagAt 1 "some") then some "some"
       else if command_keep_words.contains "some" then some "some"
       else if !osc.stop_words "some" && !is_filter_word "some" then some "some"
       else none) = some "some"
      ∨ (if important_pos.contains (osc.posTagAt 1 "some") then some "some"
       else if command_keep_words.contains "some" then some "some"
       else if !osc.stop_words "some" && !is_filter_word "some" then some "some"
       else none) = (none : Option String) := by
    split_ifs <;> simp
  have htok : ((word_tokenize "play some music").map toLowerStr).filter strIsAlnum
      = ["play", "some", "music"] := by decide
  unfold clean_command
  cases h : osc.nlpAvailable
  · simp only [Bool.false_eq_true, if_false]
    exact Or.inl (by decide)
  · rw [if_pos rfl]
    dsimp only
    rw [htok]
    rcases hsome with he | he
    · refine Or.inl ?_
      simp only [tagTokens, List.filterMap_cons, kplay, he, kmusic, List.filterMap_nil]
      rw [if_neg (by decide : ¬ (["play", "some", "music"] : List String).length < 1)]
      decide
    · refine Or.inr ?_
      simp only [tagTokens, List.filterMap_cons, kplay, he, kmusic, List.filterMap_nil]
      rw [if_neg (by decide : ¬ (["play", "music"] : List String).length < 1)]
      decide

/-- C2 counterexample: on `"Hey Jarvis play some music"` with wake list
`["jarvis", "hey jarvis"]` the claim expects the earliest-position phrase
`"hey jarvis"`; the code scans the list in order and `"jarvis"` is a substring,
so it wins. -/
theorem claim2_counterexample :
    (extract_wake_word_and_command listenerOracle0 ["jarvis", "hey jarvis"]
        "Hey Jarvis play some music").1 = some "jarvis"
    ∧ (some "jarvis" : Option String) ≠ some "hey jarvis" := by
  exact ⟨rfl, by decide⟩

/-- C2 amended: the segmenter returns the first wake phrase in LIST order that
occurs anywhere in the lower-cased transcript (string position plays no role);
on the scenario transcript this is `"jarvis"`, together with a non-empty
cleaned command containing the `play` and `music` tokens — `"play some music"`
or `"play music"` — for every behaviour of the external tagger and every
stopword set not containing `"music"` (true of both NLTK's English list and
the in-source fallback); and a transcript containing no wake phrase yields
`(null, null)`. -/
theorem claim2_segmenter_amended :
    (∀ osc : ListenerOracle, osc.stop_words "music" = false →
      ∃ c : String,
        extract_wake_word_and_command osc ["jarvis", "hey jarvis"] "Hey Jarvis play some music"
          = (some "jarvis", some c)
        ∧ (c = "play some music" ∨ c = "play music")
        ∧ c ≠ "" ∧ "play" ∈ splitWhitespace c ∧ "music" ∈ splitWhitespace c)
    ∧ (∀ (osc : ListenerOracle) (wake_words : List String) (text : String),
        (∀ w ∈ wake_words, containsSub (trimStr (toLowerStr text)) w = false) →
        extract_wake_word_and_command osc wake_words text = (none, none))
    ∧ (∀ (osc : ListenerOracle) (wake_words : List String) (text : String),
        (extract_wake_word_and_command osc wake_words text).1
          = wake_words.find? (fun w => containsSub (trimStr (toLowerStr text)) w)) := by
  refine ⟨?_, ?_, ?_⟩
  · intro osc hmus
    rcases clean_play_some_music osc hmus with hc | hc
    · exact ⟨"play some music", by rw [extract_scenario_eq_clean, hc], Or.inl rfl,
        by decide, by decide, by decide⟩
    · exact ⟨"play music", by rw [extract_scenario_eq_clean, hc], Or.inr rfl,
        by decide, by decide, by decide⟩
  · intro osc wake_words text h
    have hfind : wake_words.find? (fun w => containsSub (trimStr (toLowerStr text)) w) = none := by
      rw [List.find?_eq_none]
      intro x hx
      simp [h x hx]
    unfold extract_wake_word_and_command
    simp only [hfind]
  · intro osc wake_words text
    unfold extract_wake_word_and_command
    cases hfind : wake_words.find? (fun w => containsSub (trimStr (toLowerStr text)) w)
    · simp only [hfind]
    · simp only [hfind]
      split_ifs <;> rfl

/-- C2 witness for the amended claim: the concrete oracle (fallback stopwords,
which lack `"music"`) discharges the scenario conjunct, and a cue-free
transcript discharges the `(null, null)` conjunct. -/
theorem claim2_witness :
    (∃ c : String,
        extract_wake_word_and_command listenerOracle0 ["jarvis", "hey jarvis"]
            "Hey Jarvis play some music"
          = (some "jarvis", some c)
        ∧ (c = "play some music" ∨ c = "play music")
        ∧ c ≠ "" ∧ "play" ∈ splitWhitespace c ∧ "music" ∈ splitWhitespace c)
    ∧ extract_wake_word_and_command listenerOracle0 ["jarvis", "hey jarvis"]
        "just talking, no wake word here"
      = (none, none) :=
  ⟨claim2_segmenter_amended.1 listenerOracle0 (by decide),
   claim2_segmenter_amended.2.1 listenerOracle0 ["jarvis", "hey jarvis"]
     "just talking, no wake word here" (by decide)⟩

end Jarvis

namespace Jarvis

/-! ### The resolver's reported original input (C3) -/

/-- C3 counterexample data: a store whose last interaction was a weather
command answered at time 100. -/
def c3Store : ConversationContext :=
  ConversationContext.add_interaction {} 100 "the weather" "sunny" (some "weather") none

/-- C3 counterexample: asked the follow-up "what about tomorrow" right after a
weather interaction, `resolve_intent` substitutes the rewrite
"weather forecast tomorrow" into the local `user_input` variable and then
reports that rewritten text as `original_input` — not the utterance as the
user said it. -/
theorem claim3_counterexample :
    (IntentResolver.resolve_intent c3Store 100 nluOracle0 "what about tomorrow").original_input
      ≠ "what about tomorrow" := by
  decide

open ConversationContext IntentResolver in
/-- C3 amended: `resolve_intent` reports as `original_input` the text it
actually analyzed — the Store's follow-up rewrite whenever one was produced,
and the utterance as said otherwise. -/
theorem claim3_original_input_amended (st : ConversationContext) (now : Int)
    (osc : NLUEngine.NLUOracle) (user_input : String) :
    (resolve_intent st now osc user_input).original_input
      = (if (get_context_for_input st now user_input).is_follow_up
            && (resolve_follow_up st now user_input).resolved then
          (resolve_follow_up st now user_input).resolved_input.getD user_input
        else user_input) := by
  unfold resolve_intent
  cases hf : (get_context_for_input st now user_input).is_follow_up
  · simp [hf]
  · cases hr : (resolve_follow_up st now user_input).resolved
    · simp [hf, hr]
    · simp [hf, hr]

/-! ### Clarification predicate (C7) -/

open NLUEngine IntentResolver in
theorem needs_clarification_characterization (analysis : Analysis)
    (context : ConversationContext.Context) :
    (needs_clarification analysis context = true) ↔
      (analysis.confidence < 0.5
        ∨ (∃ a b rest, analysis.intents = a :: b :: rest
            ∧ a.confidence - b.confidence < 0.2)
        ∨ (analysis.ambiguity.has_ambiguity = true
            ∧ truthyOptStr context.referenced_topic = false)) := by
  have hand : ∀ (amb tr : Bool), ((amb && !tr) = true) ↔ (amb = true ∧ tr = false) := by
    decide
  unfold needs_clarification
  rcases hi : analysis.intents with _ | ⟨a, _ | ⟨b, rest⟩⟩
  · split_ifs with h1
    · exact iff_of_true rfl (Or.inl h1)
    · rw [hand]
      constructor
      · exact fun hx => Or.inr (Or.inr hx)
      · rintro (hc | ⟨a1, b1, rest1, heq, hg⟩ | hx)
        · exact absurd hc h1
        · exact absurd heq (by simp)
        · exact hx
  · split_ifs with h1
    · exact iff_of_true rfl (Or.inl h1)
    · rw [hand]
      constructor
      · exact fun hx => Or.inr (Or.inr hx)
      · rintro (hc | ⟨a1, b1, rest1, heq, hg⟩ | hx)
        · exact absurd hc h1
        · exact absurd heq (by simp)
        · exact hx
  · dsimp only
    split_ifs with h1 h2
    · exact iff_of_true rfl (Or.inl h1)
    · exact iff_of_true rfl (Or.inr (Or.inl ⟨a, b, rest, rfl, h2⟩))
    · rw [hand]
      constructor
      · exact fun hx => Or.inr (Or.inr hx)
      · rintro (hc | ⟨a1, b1, rest1, heq, hg⟩ | hx)
        · exact absurd hc h1
        · injection heq with e1 e2
          injection e2 with e2 e3
          subst e1
          subst e2
          exact absurd hg h2
        · exact hx

open NLUEngine IntentResolver in
/-- C7: `resolve_intent` reports `needs_clarification = true` exactly when the
overall confidence is below 0.5, or the top two ranked intents lie closer than
0.2, or ambiguity is flagged with no truthy referenced topic; in particular
any analysis whose top two intents carry confidences 0.55 and 0.50 forces
clarification. -/
theorem claim7_needs_clarification :
    (∀ (st : ConversationContext) (now : Int) (osc : NLUOracle) (user_input : String),
      ((resolve_intent st now osc user_input).needs_clarification = true ↔
        ((resolve_intent st now osc user_input).analysis.confidence < 0.5
          ∨ (∃ a b rest, (resolve_intent st now osc user_input).analysis.intents
                = a :: b :: rest
              ∧ a.confidence - b.confidence < 0.2)
          ∨ ((resolve_intent st now osc user_input).analysis.ambiguity.has_ambiguity = true
              ∧ truthyOptStr (resolve_intent st now osc user_input).context.referenced_topic
                  = false))))
    ∧ (∀ (analysis : Analysis) (context : ConversationContext.Context)
          (a b : IntentCand) (rest : List IntentCand),
        analysis.intents = a :: b :: rest → a.confidence = 0.55 → b.confidence = 0.5 →
        needs_clarification analysis context = true) := by
  constructor
  · intro st now osc user_input
    have hproj : (resolve_intent st now osc user_input).needs_clarification
        = needs_clarification (resolve_intent st now osc user_input).analysis
            (resolve_intent st now osc user_input).context := rfl
    rw [hproj]
    exact needs_clarification_characterization _ _
  · intro analysis context a b rest hint ha hb
    exact (needs_clarification_characterization analysis context).mpr
      (Or.inr (Or.inl ⟨a, b, rest, hint, by rw [ha, hb]; norm_num⟩))

open NLUEngine in
/-- C7 witness data: an analysis with intents weather@0.55 and calendar@0.50. -/
def c7Analysis : Analysis :=
  { original_input := "check the weather and calendar",
    processed_input := "check the weather and calendar",
    intents := [{ intent := "weather", confidence := 0.55 },
                { intent := "calendar", confidence := 0.5 }],
    entities := [], command_structure := {}, confidence := 0.55,
    ambiguity := {}, context_dependent := false }

/-- C7 witness data: a plain context. -/
def c7Context : ConversationContext.Context :=
  { is_follow_up := false, referenced_topic := none, implied_command := none,
    context_vars := [], recent_entities := [],
    conversation_flow := { pattern := "initial" } }

open NLUEngine IntentResolver in
/-- C7 witness: the 0.55/0.50 scenario forces clarification. -/
theorem claim7_witness : needs_clarification c7Analysis c7Context = true :=
  claim7_needs_clarification.2 c7Analysis c7Context
    { intent := "weather", confidence := 0.55 } { intent := "calendar", confidence := 0.5 }
    [] rfl rfl rfl

end Jarvis

namespace Jarvis

/-! ### Confidence bounds (C1) -/

open NLUEngine

/-- Generic preservation of an invariant along `List.foldl`. -/
theorem foldl_invariant {α β : Type} (P : α → Prop) (f : α → β → α) (l : List β)
    (init : α) (h0 : P init) (hstep : ∀ acc x, P acc → P (f acc x)) :
    P (l.foldl f init) := by
  induction l generalizing init with
  | nil => exact h0
  | cons b bs ih => exact ih _ (hstep _ _ h0)

/-- Every entity confidence in the dictionary lies in the unit interval. -/
def entitiesOK (d : List (String × List Entity)) : Prop :=
  ∀ p ∈ d, ∀ x ∈ p.2, 0 ≤ x.confidence ∧ x.confidence ≤ 1

theorem entitiesOK_nil : entitiesOK [] := by
  intro p hp
  simp at hp

theorem entitiesOK_addEntity (ty : String) (e : Entity)
    (he : 0 ≤ e.confidence ∧ e.confidence ≤ 1) :
    ∀ d, entitiesOK d → entitiesOK (addEntity d ty e) := by
  intro d
  induction d with
  | nil =>
    intro _ p hp x hx
    simp only [addEntity, List.mem_singleton] at hp
    subst hp
    simp only [List.mem_singleton] at hx
    subst hx
    exact he
  | cons q qs ih =>
    rcases q with ⟨k, es⟩
    intro hd p hp x hx
    simp only [addEntity] at hp
    split_ifs at hp with hk
    · rcases List.mem_cons.mp hp with rfl | hp
      · rcases List.mem_append.mp hx with h | h
        · exact hd (k, es) (by simp) x h
        · simp only [List.mem_singleton] at h
          subst h
          exact he
      · exact hd p (List.mem_cons_of_mem _ hp) x hx
    · rcases List.mem_cons.mp hp with rfl | hp
      · exact hd (k, es) (by simp) x hx
      · exact ih (fun p hp => hd p (List.mem_cons_of_mem _ hp)) p hp x hx

theorem extract_entities_bounds (osc : NLUOracle) (u : String) :
    entitiesOK (extract_entities osc u) := by
  have hreg : entitiesOK (entity_patterns.foldl (fun d ep =>
      ep.2.foldl (fun d pat =>
        (osc.entityMatches u pat).foldl (fun d m =>
          addEntity d ep.1
            { value := trimStr m.value, start := some m.start, stop := some m.stop,
              confidence := 0.8 }) d) d) []) := by
    apply foldl_invariant entitiesOK _ _ _ entitiesOK_nil
    intro acc ep hacc
    apply foldl_invariant entitiesOK _ _ _ hacc
    intro acc2 pat hacc2
    apply foldl_invariant entitiesOK _ _ _ hacc2
    intro acc3 m hacc3
    exact entitiesOK_addEntity _ _ (by norm_num) _ hacc3
  unfold extract_entities
  cases hnlp : osc.nlpAvailable
  · simpa using hreg
  · dsimp only
    rw [if_pos rfl]
    apply foldl_invariant entitiesOK _ _ _ hreg
    intro acc ent hacc
    cases hmap : map_spacy_entity_type ent.label
    · simpa [hmap] using hacc
    · simp only [hmap]
      exact entitiesOK_addEntity _ _ (by norm_num) _ hacc

theorem mem_insertDesc (x y : IntentCand) (l : List IntentCand)
    (h : x ∈ insertDesc y l) : x = y ∨ x ∈ l := by
  induction l with
  | nil => simpa [insertDesc] using h
  | cons z zs ih =>
    rw [insertDesc] at h
    split_ifs at h
    · simp only [List.mem_cons] at h ⊢
      tauto
    · simp only [List.mem_cons] at h
      rcases h with h | h
      · exact Or.inr (by simp [h])
      · rcases ih h with h | h
        · exact Or.inl h
        · exact Or.inr (by simp [h])

theorem mem_sortByConfidenceDesc (x : IntentCand) (l : List IntentCand)
    (h : x ∈ sortByConfidenceDesc l) : x ∈ l := by
  induction l with
  | nil => simp [sortByConfidenceDesc] at h
  | cons y ys ih =>
    rw [sortByConfidenceDesc, List.foldr_cons] at h
    rcases mem_insertDesc _ _ _ h with h | h
    · simp [h]
    · exact List.mem_cons_of_mem _ (ih h)

theorem intent_candidate_bounds (osc : NLUOracle) (pi : String)
    (ip : String × List String) (c : IntentCand)
    (hf : intent_candidate osc pi ip = some c) :
    0 ≤ c.confidence ∧ c.confidence ≤ 1 := by
  unfold intent_candidate at hf
  dsimp only at hf
  split_ifs at hf with hm hp hq
  all_goals
    first
      | exact Option.noConfusion hf
      | (cases hf
         dsimp only
         constructor
         · exact le_min (by positivity) zero_le_one
         · exact min_le_right _ _)

theorem classify_intents_bounds (osc : NLUOracle) (u : String) :
    ∀ c ∈ classify_intents osc u, 0 ≤ c.confidence ∧ c.confidence ≤ 1 := by
  intro c hc
  unfold classify_intents at hc
  have hc' := mem_sortByConfidenceDesc _ _ hc
  rcases List.mem_filterMap.mp hc' with ⟨ip, _, hf⟩
  exact intent_candidate_bounds _ _ _ _ hf

theorem confidence_before_ambiguity_bounds (analysis : Analysis)
    (hi : ∀ c ∈ analysis.intents, 0 ≤ c.confidence ∧ c.confidence ≤ 1)
    (he : entitiesOK analysis.entities) :
    0 ≤ confidence_before_ambiguity analysis
      ∧ confidence_before_ambiguity analysis ≤ 1 := by
  unfold confidence_before_ambiguity
  dsimp only
  set ents := (analysis.entities.map (fun p => p.2)).flatten with hents
  have hentmem : ∀ x ∈ ents, (0:ℚ) ≤ x.confidence ∧ x.confidence ≤ 1 := by
    intro x hx
    rw [hents] at hx
    rcases List.mem_flatten.mp hx with ⟨l, hl, hx⟩
    rcases List.mem_map.mp hl with ⟨p, hp, rfl⟩
    exact he p hp x hx
  have htop : 0 ≤ (match analysis.intents with
        | [] => (0:ℚ)
        | top :: _ => 0 + top.confidence * 0.4)
      ∧ (match analysis.intents with
        | [] => (0:ℚ)
        | top :: _ => 0 + top.confidence * 0.4) ≤ 0.4 := by
    rcases hl : analysis.intents with _ | ⟨top, tl⟩
    · norm_num
    · have h := hi top (by rw [hl]; simp)
      constructor <;> nlinarith [h.1, h.2]
  by_cases hcnt : 0 < ents.length
  · have hlen : (0:ℚ) < (ents.length : ℚ) := by exact_mod_cast hcnt
    have hsum_le : (ents.map (fun e => e.confidence)).sum ≤ (ents.length : ℚ) := by
      have := List.sum_le_card_nsmul (ents.map (fun e => e.confidence)) 1 ?bound
      case bound =>
        intro x hx
        rcases List.mem_map.mp hx with ⟨e, he', rfl⟩
        exact (hentmem e he').2
      simpa [nsmul_eq_mul] using this
    have hsum_nonneg : (0:ℚ) ≤ (ents.map (fun e => e.confidence)).sum := by
      apply List.sum_nonneg
      intro x hx
      rcases List.mem_map.mp hx with ⟨e, he', rfl⟩
      exact (hentmem e he').1
    have hm1 : (0:ℚ) ≤ (ents.map (fun e => e.confidence)).sum / (ents.length : ℚ) :=
      div_nonneg hsum_nonneg hlen.le
    have hm2 : (ents.map (fun e => e.confidence)).sum / (ents.length : ℚ) ≤ 1 :=
      (div_le_one hlen).mpr hsum_le
    rw [if_pos hcnt]
    split_ifs with h1 h2 <;> constructor <;> nlinarith [htop.1, htop.2, hm1, hm2]
  · rw [if_neg hcnt]
    split_ifs with h1 h2 <;> constructor <;> nlinarith [htop.1, htop.2]

theorem calculate_confidence_le_one (analysis : Analysis) :
    calculate_confidence analysis ≤ 1 :=
  min_le_right _ _

theorem calculate_confidence_nonneg (analysis : Analysis)
    (hi : ∀ c ∈ analysis.intents, 0 ≤ c.confidence ∧ c.confidence ≤ 1)
    (he : entitiesOK analysis.entities) :
    0 ≤ calculate_confidence analysis := by
  have hb := confidence_before_ambiguity_bounds analysis hi he
  unfold calculate_confidence
  dsimp only
  split_ifs with hamb
  · exact le_min (by nlinarith [hb.1]) zero_le_one
  · exact le_min hb.1 zero_le_one

theorem calculate_confidence_le_of_ambiguity (analysis : Analysis)
    (hi : ∀ c ∈ analysis.intents, 0 ≤ c.confidence ∧ c.confidence ≤ 1)
    (he : entitiesOK analysis.entities)
    (hamb : analysis.ambiguity.has_ambiguity = true) :
    calculate_confidence analysis ≤ 0.8 := by
  have hb := confidence_before_ambiguity_bounds analysis hi he
  unfold calculate_confidence
  dsimp only
  rw [if_pos hamb]
  calc min (confidence_before_ambiguity analysis * 0.8) 1
      ≤ confidence_before_ambiguity analysis * 0.8 := min_le_left _ _
    _ ≤ 0.8 := by nlinarith [hb.1, hb.2]

theorem detect_ambiguity_of_terms (osc : NLUOracle) (u : String)
    (h : (detect_ambiguity osc u).ambiguous_terms ≠ []) :
    (detect_ambiguity osc u).has_ambiguity = true := by
  unfold detect_ambiguity at h ⊢
  dsimp only at h ⊢
  cases hte : ambiguous_pronouns.filter (fun p => containsWordCI u p)
  · rw [hte] at h
    exact absurd rfl h
  · simp

end Jarvis

namespace Jarvis

open NLUEngine in
/-- C1: for every input string (the empty string, pure punctuation and
stopword-only strings included), every context argument and every behaviour of
the regex/spaCy collaborators, the confidence of the analysis returned by
`analyze_input` lies in `[0, 1]`; ambiguity multiplies the accumulated
confidence by 0.8 rather than zeroing it, and the bound still holds when
context folding adds its +0.2 bump (the bump only fires when ambiguous terms
were found, in which case the 0.8 penalty had already been applied). -/
theorem claim1_confidence_unit_interval :
    (∀ (osc : NLUOracle) (user_input : String)
        (context : Option ConversationContext.Context),
      0 ≤ (analyze_input osc user_input context).confidence
        ∧ (analyze_input osc user_input context).confidence ≤ 1)
    ∧ (∀ analysis : Analysis, analysis.ambiguity.has_ambiguity = true →
        calculate_confidence analysis
          = min (confidence_before_ambiguity analysis * 0.8) 1) := by
  constructor
  · intro osc user_input context
    have hi : ∀ c ∈ (analysis_record osc user_input).intents,
        0 ≤ c.confidence ∧ c.confidence ≤ 1 := classify_intents_bounds osc user_input
    have he : entitiesOK (analysis_record osc user_input).entities :=
      extract_entities_bounds osc user_input
    have h1 := calculate_confidence_nonneg _ hi he
    have hle := calculate_confidence_le_one (analysis_record osc user_input)
    unfold analyze_input
    dsimp only
    cases context with
    | none => exact ⟨h1, hle⟩
    | some ctx =>
      cases hdep : (analysis_record osc user_input).context_dependent
      · simp only [hdep, Bool.false_eq_true, if_false]
        exact ⟨h1, hle⟩
      · simp only [hdep, if_true]
        unfold resolve_with_context
        dsimp only
        cases hterms : (analysis_record osc user_input).ambiguity.ambiguous_terms with
        | nil =>
          simp only [hterms, List.isEmpty_nil, Bool.not_true, Bool.false_eq_true, if_false]
          split_ifs <;> exact ⟨h1, hle⟩
        | cons t ts =>
          simp only [hterms, List.isEmpty_cons, Bool.not_false, if_true]
          have hamb : (analysis_record osc user_input).ambiguity.has_ambiguity = true := by
            refine detect_ambiguity_of_terms osc user_input ?_
            show (analysis_record osc user_input).ambiguity.ambiguous_terms ≠ []
            rw [hterms]
            simp
          have h2 := calculate_confidence_le_of_ambiguity _ hi he hamb
          cases htr : truthyOptStr ctx.referenced_topic
          · simp only [htr, Bool.false_eq_true, if_false]
            split_ifs <;> exact ⟨h1, hle⟩
          · simp only [htr, if_true]
            split_ifs <;> constructor <;> dsimp only <;> nlinarith [h1, h2]
  · intro analysis hamb
    unfold calculate_confidence
    dsimp only
    rw [if_pos hamb]

open NLUEngine in
/-- C1 witness: for an analysis with ambiguity flagged, the penalty is the
multiplication by 0.8 of the accumulated confidence, clamped at 1. -/
theorem claim1_witness :
    calculate_confidence
        { original_input := "what about that", processed_input := "what about that",
          intents := [], entities := [], command_structure := {}, confidence := 0,
          ambiguity := { has_ambiguity := true, ambiguous_terms := ["that"] },
          context_dependent := true }
      = min (confidence_before_ambiguity
          { original_input := "what about that", processed_input := "what about that",
            intents := [], entities := [], command_structure := {}, confidence := 0,
            ambiguity := { has_ambiguity := true, ambiguous_terms := ["that"] },
            context_dependent := true } * 0.8) 1 :=
  claim1_confidence_unit_interval.2 _ rfl

end Jarvis
